import Mathlib

/-!
Verification of the ahm-ai chat client against its design specification.

The repository has two variants of the application source:
* `V1` models `src/index.tsx` (per-user session list held in component state);
* `V2` models `src/unnamed/part_000` (consolidated per-owner session store).

Messages, sessions and user profiles are translated structure-for-structure
from the TypeScript interfaces.  JavaScript strings are modelled by Lean
`String` (one `Char` per code unit; all the data moved around by the claims
is code-unit based).  JavaScript numbers occurring in `AISettings` are only
ever stored and copied, never computed with, so they are modelled by `Rat`.
Browser built-ins used by the code (`String.prototype.trim`,
`String.prototype.toLowerCase`, `btoa`, `atob`, `JSON.stringify`,
`JSON.parse`, `URLSearchParams`) are out-of-scope externals per the
specification; they are given executable models faithful to their
documented contracts below, at the fragment the application exercises.
-/

/-- Message role, from the `Message` interface (`'user' | 'model'`). -/
inductive Role where
  | user
  | model
deriving DecidableEq, Repr

/-- Chat message, from the `Message` interface in both source variants. -/
structure Message where
  role : Role
  text : String
deriving DecidableEq, Repr

/-- Generation settings, from the `AISettings` interface.  Numeric fields are
only stored, never computed with, and are modelled by `Rat`. -/
structure AISettings where
  model : String
  systemInstruction : Option String
  temperature : Option Rat
  topK : Option Rat
  topP : Option Rat
  intelligentMode : Option String
  codeIsNonbro : Option Bool
deriving DecidableEq, Repr

/-- The `DEFAULT_AI_SETTINGS` constant (identical in both variants). -/
def DEFAULT_AI_SETTINGS : AISettings :=
  ⟨"gemini-2.5-flash", some "", some (9/10), some 1, some 1, some "ahm ai 2.5", some false⟩

/-- User profile, from the `UserProfile` interface (both variants). -/
structure UserProfile where
  id : String
  username : String
  isVerified : Bool
  profilePicture : Option String
deriving DecidableEq, Repr

/-- The `DEFAULT_GUEST_USER_PROFILE` constant. -/
def DEFAULT_GUEST_USER_PROFILE : UserProfile := ⟨"guest", "Guest", false, none⟩

/-- Characters treated as whitespace by JavaScript `String.prototype.trim`
(the WhiteSpace and LineTerminator productions; the code points the
application can meet). -/
def isJsWhitespace (c : Char) : Bool :=
  c = ' ' ∨ c = '\t' ∨ c = '\n' ∨ c = '\r' ∨ c = '\x0b' ∨ c = '\x0c' ∨
  c = '\u00A0' ∨ c = '\u2028' ∨ c = '\u2029' ∨ c = '\uFEFF'

/-- Model of JavaScript `String.prototype.trim` on the character list:
drop leading and trailing whitespace. -/
def jsTrimList (l : List Char) : List Char :=
  ((l.dropWhile isJsWhitespace).reverse.dropWhile isJsWhitespace).reverse

/-- Model of JavaScript `String.prototype.trim`. -/
def jsTrim (s : String) : String := ⟨jsTrimList s.data⟩

/-- Model of JavaScript `substring(0, n)` (code-unit truncation). -/
def jsSubstring0 (n : Nat) (s : String) : String := ⟨s.data.take n⟩

/-- Model of JavaScript `.length` (code-unit count). -/
def jsLength (s : String) : Nat := s.data.length

theorem String.mk_data (s : String) : String.mk s.data = s := rfl

theorem dropWhile_head_not (p : Char → Bool) (l : List Char) :
    l.dropWhile p = [] ∨ ∃ h t, l.dropWhile p = h :: t ∧ p h = false := by
  induction l with
  | nil => exact Or.inl rfl
  | cons a l ih =>
    by_cases hp : p a
    · simpa [List.dropWhile_cons, hp] using ih
    · exact Or.inr ⟨a, l, by simp [List.dropWhile_cons, hp], by simpa using hp⟩

theorem dropWhile_self_of_head_not (p : Char → Bool) (l : List Char)
    (h : l = [] ∨ ∃ a t, l = a :: t ∧ p a = false) : l.dropWhile p = l := by
  rcases h with h | ⟨a, t, rfl, ha⟩
  · simp [h]
  · simp [List.dropWhile_cons, ha]

theorem dropWhile_idem (p : Char → Bool) (l : List Char) :
    (l.dropWhile p).dropWhile p = l.dropWhile p := by
  apply dropWhile_self_of_head_not
  rcases dropWhile_head_not p l with h | ⟨a, t, h, ha⟩
  · exact Or.inl h
  · exact Or.inr ⟨a, t, h, ha⟩

theorem dropWhile_isSuffix (p : Char → Bool) (l : List Char) :
    l.dropWhile p <:+ l := by
  induction l with
  | nil => simp
  | cons a l ih =>
    by_cases hp : p a
    · simpa [List.dropWhile_cons, hp] using ih.trans (List.suffix_cons a l)
    · simp [List.dropWhile_cons, hp]

theorem jsTrimList_idem (l : List Char) : jsTrimList (jsTrimList l) = jsTrimList l := by
  unfold jsTrimList
  set A := l.dropWhile isJsWhitespace with hA
  set C := A.reverse.dropWhile isJsWhitespace with hC
  have hrev : C.reverse.reverse = C := List.reverse_reverse C
  have hBdrop : C.reverse.dropWhile isJsWhitespace = C.reverse := by
    apply dropWhile_self_of_head_not
    -- the head of C.reverse is the head of A when both are nonempty
    have hsuff : C <:+ A.reverse := hC ▸ dropWhile_isSuffix _ _
    have hpre : C.reverse <+: A := by
      have := List.reverse_prefix.mpr hsuff
      simpa using this
    rcases hCr : C.reverse with _ | ⟨a, t⟩
    · exact Or.inl rfl
    · refine Or.inr ⟨a, t, rfl, ?_⟩
      obtain ⟨tail, htail⟩ := hpre
      rw [hCr] at htail
      rcases dropWhile_head_not isJsWhitespace l with h0 | ⟨b, u, hbu, hb⟩
      · rw [← hA] at h0; rw [h0] at htail; simp at htail
      · rw [← hA] at hbu
        rw [hbu] at htail
        have : a = b := by
          have := congrArg (List.head? ·) htail
          simpa using this
        rw [this]; exact hb
  rw [hBdrop, hrev, hC, dropWhile_idem]

theorem jsTrim_idem (s : String) : jsTrim (jsTrim s) = jsTrim s := by
  unfold jsTrim
  exact congrArg String.mk (jsTrimList_idem s.data)

namespace V1

/-- Stored chat session, from the `StoredSession` interface in
`src/index.tsx` (this variant has no `ownerId` field). -/
structure StoredSession where
  id : String
  title : String
  messages : List Message
  settings : AISettings
  isPublic : Bool
  isArchived : Bool
deriving DecidableEq, Repr

/-- Session created by `handleNewChat` in `src/index.tsx`: title
`New Chat`, one greeting model message, the current global settings,
not public, not archived.  The id (`Date.now().toString()`) is passed in. -/
def newChatSession (id : String) (settings : AISettings) : StoredSession :=
  ⟨id, "New Chat", [⟨Role.model, "Hello! How can I help you today?"⟩], settings, false, false⟩

/-- Number of user-authored messages in a transcript
(`messages.filter(m => m.role === 'user').length`). -/
def countUserMessages (msgs : List Message) : Nat :=
  (msgs.filter (fun m => m.role = Role.user)).length

/-- Auto-derived title of the first user message in `handleSendMessage`:
`inputValue.substring(0, 30) + (inputValue.length > 30 ? '...' : '')`. -/
def autoTitle (input : String) : String :=
  jsSubstring0 30 input ++ (if 30 < jsLength input then "..." else "")

/-- The fixed fallback model message appended when the completion request
fails (`catch` branch of `handleSendMessage`). -/
def fallbackErrorMessage : Message :=
  ⟨Role.model, "Oops! Something went wrong. Please try again."⟩

/-- Message appended for a completion outcome: the reply text on success,
the fixed fallback on failure. -/
def replyMessage : Option String → Message
  | some text => ⟨Role.model, text⟩
  | none => fallbackErrorMessage

/-- State-relevant core of `handleSendMessage` in `src/index.tsx`
(lines 388-438).  The guards (`!inputValue.trim() || isLoading || !chat ||
!activeSessionId`, and the guest check) have already passed.  `outcome` is
the completion call result: `some text` on success, `none` on failure
(the `catch` branch).  Returns the session list after both state updates
and the final `isLoading` flag (cleared in `finally`). -/
def handleSendMessage (sessions : List StoredSession) (activeSessionId : String)
    (input : String) (outcome : Option String) : List StoredSession × Bool :=
  match sessions.find? (fun s => s.id = activeSessionId) with
  | none => (sessions, false)
  | some activeSession =>
    let isFirstUserMessage := countUserMessages activeSession.messages = 0
    let newTitle := if isFirstUserMessage then autoTitle input else activeSession.title
    let updatedSession :=
      { activeSession with
          messages := activeSession.messages ++ [⟨Role.user, input⟩], title := newTitle }
    let afterUser := sessions.map (fun s => if s.id = activeSessionId then updatedSession else s)
    let reply : Message := replyMessage outcome
    (afterUser.map (fun s =>
        if s.id = activeSessionId then { s with messages := s.messages ++ [reply] } else s),
     false)

/-- Title committed by `handleTitleSave`: the edited text trimmed, falling
back to `Untitled Chat` when the trim is empty
(`editingTitle.trim() || 'Untitled Chat'`). -/
def finalRenameTitle (editingTitle : String) : String :=
  if jsTrim editingTitle = "" then "Untitled Chat" else jsTrim editingTitle

/-- Model of `handleTitleSave` in `src/index.tsx` (lines 446-455): commit
the title computed by `finalRenameTitle` to the session being edited. -/
def handleTitleSave (sessions : List StoredSession) (editingSessionId : Option String)
    (editingTitle : String) : List StoredSession :=
  match editingSessionId with
  | none => sessions
  | some id =>
    sessions.map (fun s => if s.id = id then { s with title := finalRenameTitle editingTitle } else s)

/-- Model of `handleDeleteSession` in `src/index.tsx` (lines 465-481), after
the confirm dialog is accepted.  When the deleted session was active and no
session remains, `handleNewChat(true)` replaces the list with one fresh
session; its id and the current global settings are passed in.  Returns the
new session list and the new active session id. -/
def handleDeleteSession (sessions : List StoredSession) (activeSessionId : String)
    (sessionId : String) (freshId : String) (aiSettings : AISettings) :
    List StoredSession × String :=
  let updatedSessions := sessions.filter (fun s => ¬ s.id = sessionId)
  if activeSessionId = sessionId then
    match updatedSessions with
    | [] => ([newChatSession freshId aiSettings], freshId)
    | s :: _ => (updatedSessions, s.id)
  else (updatedSessions, activeSessionId)

/-- Model of `handleArchiveSession` in `src/index.tsx` (lines 483-500).
The archived flag of the target session is toggled; when the target was the
active session and archived sessions are hidden, the first remaining
non-archived session becomes active, else `handleNewChat(true)` replaces
the list with one fresh session.  Returns the new session list and the new
active session id. -/
def handleArchiveSession (sessions : List StoredSession) (activeSessionId : String)
    (showArchivedSessions : Bool) (sessionId : String) (freshId : String)
    (aiSettings : AISettings) : List StoredSession × String :=
  let toggled := sessions.map
    (fun s => if s.id = sessionId then { s with isArchived := ¬ s.isArchived } else s)
  if activeSessionId = sessionId ∧ showArchivedSessions = false then
    let remainingSessions := sessions.filter (fun s => ¬ s.id = sessionId ∧ s.isArchived = false)
    match remainingSessions with
    | s :: _ => (toggled, s.id)
    | [] => ([newChatSession freshId aiSettings], freshId)
  else (toggled, activeSessionId)

/-- Model of JavaScript `String.prototype.toLowerCase` at the fragment the
application exercises (ASCII case folding). -/
def jsToLower (s : String) : String := s.toLower

/-- Model of `updateUserProfile` in `src/index.tsx` (lines 121-137), the
roster part: replace the profile with the matching id, or append when the
id is unknown. -/
def updateUserProfile (roster : List UserProfile) (p : UserProfile) : List UserProfile :=
  match roster.findIdx? (fun u => u.id = p.id) with
  | some i => roster.set i p
  | none => roster ++ [p]

/-- Model of `handleLoginRegister` in `src/index.tsx` (lines 822-850).
Case-insensitive lookup of the trimmed username; an existing profile is
logged in unchanged (the verified flag is ignored), otherwise a new profile
with the freshly generated id (`crypto.randomUUID()`, passed in) is added
and logged in.  An empty trimmed username sets an error and changes
nothing.  Returns the roster and the current user after the call. -/
def handleLoginRegister (roster : List UserProfile) (currentUser : UserProfile)
    (username : String) (verifiedFlag : Bool) (freshId : String) :
    List UserProfile × UserProfile :=
  let trimmedUsername := jsTrim username
  if trimmedUsername = "" then (roster, currentUser)
  else
    match roster.find? (fun u => jsToLower u.username = jsToLower trimmedUsername) with
    | some existingUser => (roster, existingUser)
    | none =>
      let newUserProfile : UserProfile := ⟨freshId, trimmedUsername, verifiedFlag, none⟩
      (updateUserProfile roster newUserProfile, newUserProfile)

end V1

namespace V1

/-- Active session after `handleSendMessage`: user message and completion
reply appended, title auto-derived exactly when the transcript held no
prior user-authored message. -/
def sentSession (act : StoredSession) (input : String) (outcome : Option String) : StoredSession :=
  { act with
      title := if countUserMessages act.messages = 0 then autoTitle input else act.title,
      messages := act.messages ++ [⟨Role.user, input⟩, replyMessage outcome] }

theorem handleSendMessage_eq (sessions : List StoredSession) (activeSessionId input : String)
    (outcome : Option String) (act : StoredSession)
    (hfind : sessions.find? (fun s => s.id = activeSessionId) = some act) :
    handleSendMessage sessions activeSessionId input outcome =
      (sessions.map (fun s => if s.id = activeSessionId then sentSession act input outcome else s),
       false) := by
  have hid : act.id = activeSessionId := by simpa using List.find?_some hfind
  unfold handleSendMessage
  rw [hfind]
  simp only [List.map_map]
  refine congrArg (fun l => (l, false)) ?_
  apply List.map_congr_left
  intro s _
  by_cases hs : s.id = activeSessionId
  · simp [Function.comp, hs, hid, sentSession, List.append_assoc]
  · simp [Function.comp, hs]

end V1

namespace V1

/-- Claim C1 (amended).  After a send into a session holding no prior
user-authored message the title becomes the message truncated to its first
30 code units, with an ellipsis suffix appended iff the message exceeds 30
code units.  A send into a session that already holds a user-authored
message never changes the title, and every send leaves at least one
user-authored message, so a manual rename made after the first user
message is never auto-overwritten.  The unqualified no-overwrite part of
the claim is false: a manual rename made before the first user message is
overwritten by that first send (see the counterexample theorem). -/
theorem c1_first_send_auto_title (sessions : List StoredSession)
    (activeSessionId input : String) (outcome : Option String) (act : StoredSession)
    (hfind : sessions.find? (fun s => s.id = activeSessionId) = some act) :
    (handleSendMessage sessions activeSessionId input outcome).1 =
      sessions.map (fun s => if s.id = activeSessionId then sentSession act input outcome else s)
    ∧ (countUserMessages act.messages = 0 →
        (sentSession act input outcome).title =
          (if 30 < jsLength input then jsSubstring0 30 input ++ "..." else input))
    ∧ (1 ≤ countUserMessages act.messages →
        (sentSession act input outcome).title = act.title)
    ∧ 1 ≤ countUserMessages (sentSession act input outcome).messages := by
  refine ⟨by rw [handleSendMessage_eq sessions activeSessionId input outcome act hfind],
    ?_, ?_, ?_⟩
  · intro h0
    by_cases hlen : 30 < jsLength input
    · simp [sentSession, h0, autoTitle, hlen]
    · have htake : jsSubstring0 30 input = input := by
        unfold jsSubstring0
        rw [List.take_of_length_le (by unfold jsLength at hlen; omega)]
      simp [sentSession, h0, autoTitle, hlen, htake]
  · intro h1
    have h0 : ¬ countUserMessages act.messages = 0 := by omega
    simp [sentSession, h0]
  · cases outcome <;>
      simp [sentSession, countUserMessages, List.filter_append, replyMessage,
        fallbackErrorMessage]

/-- Witness for claim C1 at a concrete session. -/
theorem c1_first_send_auto_title_witness :
    [newChatSession "1" DEFAULT_AI_SETTINGS].find? (fun s => s.id = "1") =
        some (newChatSession "1" DEFAULT_AI_SETTINGS)
    ∧ ((handleSendMessage [newChatSession "1" DEFAULT_AI_SETTINGS] "1" "hi" (some "ok")).1 =
        [newChatSession "1" DEFAULT_AI_SETTINGS].map
          (fun s => if s.id = "1" then
            sentSession (newChatSession "1" DEFAULT_AI_SETTINGS) "hi" (some "ok") else s)
      ∧ (countUserMessages (newChatSession "1" DEFAULT_AI_SETTINGS).messages = 0 →
          (sentSession (newChatSession "1" DEFAULT_AI_SETTINGS) "hi" (some "ok")).title =
            (if 30 < jsLength "hi" then jsSubstring0 30 "hi" ++ "..." else "hi"))
      ∧ (1 ≤ countUserMessages (newChatSession "1" DEFAULT_AI_SETTINGS).messages →
          (sentSession (newChatSession "1" DEFAULT_AI_SETTINGS) "hi" (some "ok")).title =
            (newChatSession "1" DEFAULT_AI_SETTINGS).title)
      ∧ 1 ≤ countUserMessages
          (sentSession (newChatSession "1" DEFAULT_AI_SETTINGS) "hi" (some "ok")).messages) :=
  ⟨rfl,
   c1_first_send_auto_title [newChatSession "1" DEFAULT_AI_SETTINGS] "1" "hi" (some "ok")
     (newChatSession "1" DEFAULT_AI_SETTINGS) rfl⟩

/-- Counterexample to claim C1 as stated: a fresh session is manually
renamed to `My Plan` before any user message; the next send auto-derives
the title `hello`, overwriting the manual rename. -/
theorem c1_rename_before_first_message_overwritten :
    (handleTitleSave [newChatSession "1" DEFAULT_AI_SETTINGS] (some "1") "My Plan").map
        (fun s => s.title) = ["My Plan"]
    ∧ ((handleSendMessage
          (handleTitleSave [newChatSession "1" DEFAULT_AI_SETTINGS] (some "1") "My Plan")
          "1" "hello" (some "ok")).1.map (fun s => s.title)) = ["hello"]
    ∧ ("hello" : String) ≠ "My Plan" :=
  ⟨by decide, by decide, by decide⟩

/-- Claim C10: a rename commit sets the edited session's title to the
edited text with leading and trailing whitespace trimmed, falling back to
the fixed `Untitled Chat` when the text trims to empty; the committed
title is never empty and never whitespace-only (it is a fixed point of
trimming). -/
theorem c10_rename_commit_title (sessions : List StoredSession) (id editingTitle : String) :
    handleTitleSave sessions (some id) editingTitle =
      sessions.map (fun s =>
        if s.id = id then { s with title := finalRenameTitle editingTitle } else s)
    ∧ finalRenameTitle editingTitle =
        (if jsTrim editingTitle = "" then "Untitled Chat" else jsTrim editingTitle)
    ∧ finalRenameTitle editingTitle ≠ ""
    ∧ jsTrim (finalRenameTitle editingTitle) = finalRenameTitle editingTitle := by
  refine ⟨rfl, rfl, ?_, ?_⟩
  · unfold finalRenameTitle
    by_cases h : jsTrim editingTitle = "" <;> simp [h]
  · unfold finalRenameTitle
    by_cases h : jsTrim editingTitle = ""
    · simp only [h, if_pos]
      decide
    · simp [h, jsTrim_idem]

end V1

namespace V1

/-- Replacement rule the claim states for deletion, modelled from the
specification words: prefer the first remaining non-archived session; if
none remains, a freshly created session. -/
def specDeleteReplacement (sessions : List StoredSession) (sessionId freshId : String) : String :=
  match sessions.filter (fun s => ¬ s.id = sessionId ∧ s.isArchived = false) with
  | [] => freshId
  | s :: _ => s.id

/-- Claim C4 (amended): deleting the active session promotes the first
remaining session regardless of its archived flag (not the first
non-archived one, as the claim states); only when no session remains at
all is a fresh session created and made active; afterwards the active id
always names an existing session. -/
theorem c4_delete_active_promotes_first_remaining (sessions : List StoredSession)
    (activeSessionId sessionId freshId : String) (aiSettings : AISettings)
    (hactive : activeSessionId = sessionId) :
    (handleDeleteSession sessions activeSessionId sessionId freshId aiSettings).1 =
      (if sessions.filter (fun s => ¬ s.id = sessionId) = []
       then [newChatSession freshId aiSettings]
       else sessions.filter (fun s => ¬ s.id = sessionId))
    ∧ (handleDeleteSession sessions activeSessionId sessionId freshId aiSettings).2 =
      (match (sessions.filter (fun s => ¬ s.id = sessionId)).head? with
       | some s => s.id
       | none => freshId)
    ∧ (handleDeleteSession sessions activeSessionId sessionId freshId aiSettings).2 ∈
      ((handleDeleteSession sessions activeSessionId sessionId freshId aiSettings).1.map
        (fun s => s.id)) := by
  subst hactive
  cases hrem : sessions.filter (fun s => ¬ s.id = activeSessionId) with
  | nil =>
    simp only [handleDeleteSession]
    rw [hrem]
    simp [newChatSession]
  | cons s rest =>
    simp only [handleDeleteSession]
    rw [hrem]
    simp

/-- Witness for claim C4 at a concrete session list. -/
theorem c4_delete_active_witness :
    ("a" : String) = "a"
    ∧ (handleDeleteSession [newChatSession "a" DEFAULT_AI_SETTINGS] "a" "a" "f"
          DEFAULT_AI_SETTINGS).2 ∈
      ((handleDeleteSession [newChatSession "a" DEFAULT_AI_SETTINGS] "a" "a" "f"
          DEFAULT_AI_SETTINGS).1.map (fun s => s.id)) :=
  ⟨rfl, (c4_delete_active_promotes_first_remaining [newChatSession "a" DEFAULT_AI_SETTINGS]
    "a" "a" "f" DEFAULT_AI_SETTINGS rfl).2.2⟩

/-- Counterexample to claim C4 as stated: the only remaining session `a`
is archived, so the claimed rule requires a fresh session `f` to become
active, but the code promotes the archived session `a`. -/
theorem c4_delete_ignores_archived_cx :
    (handleDeleteSession
        [{ newChatSession "a" DEFAULT_AI_SETTINGS with isArchived := true },
         newChatSession "b" DEFAULT_AI_SETTINGS] "b" "b" "f" DEFAULT_AI_SETTINGS).2 = "a"
    ∧ specDeleteReplacement
        [{ newChatSession "a" DEFAULT_AI_SETTINGS with isArchived := true },
         newChatSession "b" DEFAULT_AI_SETTINGS] "b" "f" = "f"
    ∧ ({ newChatSession "a" DEFAULT_AI_SETTINGS with isArchived := true }).isArchived = true
    ∧ ("a" : String) ≠ "f" :=
  ⟨by decide, by decide, rfl, by decide⟩

/-- Claim C5: archiving the active session while the show-archived toggle
is off makes the first remaining non-archived session active, or a fresh
session when none remains; the new active id always names a session in the
resulting list. -/
theorem c5_archive_active_replacement (sessions : List StoredSession)
    (activeSessionId sessionId freshId : String) (aiSettings : AISettings)
    (hactive : activeSessionId = sessionId) :
    (handleArchiveSession sessions activeSessionId false sessionId freshId aiSettings).2 =
      (match (sessions.filter (fun s => ¬ s.id = sessionId ∧ s.isArchived = false)).head? with
       | some s => s.id
       | none => freshId)
    ∧ (handleArchiveSession sessions activeSessionId false sessionId freshId aiSettings).2 ∈
      ((handleArchiveSession sessions activeSessionId false sessionId freshId aiSettings).1.map
        (fun s => s.id)) := by
  subst hactive
  have hids : (sessions.map (fun x =>
        if x.id = activeSessionId then { x with isArchived := ¬ x.isArchived } else x)).map
      (fun s => s.id) = sessions.map (fun s => s.id) := by
    rw [List.map_map]
    apply List.map_congr_left
    intro x _
    by_cases hx : x.id = activeSessionId <;> simp [hx]
  cases hrem : sessions.filter (fun s => ¬ s.id = activeSessionId ∧ s.isArchived = false) with
  | nil =>
    simp only [handleArchiveSession]
    rw [hrem]
    simp [newChatSession]
  | cons s rest =>
    have hmem : s ∈ sessions := List.mem_of_mem_filter (hrem ▸ List.mem_cons_self s rest)
    have hin : s.id ∈ sessions.map (fun s => s.id) := List.mem_map_of_mem (fun s => s.id) hmem
    simp only [handleArchiveSession]
    rw [hrem]
    constructor
    · simp
    · show s.id ∈ ((sessions.map (fun x =>
          if x.id = activeSessionId then { x with isArchived := ¬ x.isArchived } else x)).map
          (fun s => s.id))
      rw [hids]
      exact hin

/-- Witness for claim C5 at a concrete session list. -/
theorem c5_archive_active_witness :
    ("a" : String) = "a"
    ∧ (handleArchiveSession [newChatSession "a" DEFAULT_AI_SETTINGS,
          newChatSession "b" DEFAULT_AI_SETTINGS] "a" false "a" "f" DEFAULT_AI_SETTINGS).2 ∈
      ((handleArchiveSession [newChatSession "a" DEFAULT_AI_SETTINGS,
          newChatSession "b" DEFAULT_AI_SETTINGS] "a" false "a" "f"
          DEFAULT_AI_SETTINGS).1.map (fun s => s.id)) :=
  ⟨rfl, (c5_archive_active_replacement
    [newChatSession "a" DEFAULT_AI_SETTINGS, newChatSession "b" DEFAULT_AI_SETTINGS]
    "a" "a" "f" DEFAULT_AI_SETTINGS rfl).2⟩

end V1

namespace V1

theorem updateUserProfile_append (roster : List UserProfile) (p : UserProfile)
    (h : ∀ u ∈ roster, u.id ≠ p.id) : updateUserProfile roster p = roster ++ [p] := by
  unfold updateUserProfile
  have hidx : roster.findIdx? (fun u => u.id = p.id) = none := by
    rw [List.findIdx?_eq_none_iff]
    intro u hu
    simpa using h u hu
  rw [hidx]

/-- Claim C6 (amended): for a submitted username whose trim is non-empty,
register-or-login looks the trimmed name up case-insensitively in the
roster.  An existing profile is made current unchanged — the supplied
verified flag is ignored and nothing is added.  Otherwise a profile
carrying the freshly generated id is appended to the roster and made
current, and submitting any case variant of the same username again logs
into that very profile without adding another.  The unqualified claim is
false for a username that trims to empty: the code rejects it with an
error and creates nothing (see the counterexample theorem). -/
theorem c6_register_or_login (roster : List UserProfile) (currentUser : UserProfile)
    (username : String) (verifiedFlag : Bool) (freshId : String)
    (hne : jsTrim username ≠ "")
    (hfresh : ∀ u ∈ roster, u.id ≠ freshId) :
    (∀ existingUser,
       roster.find? (fun u => jsToLower u.username = jsToLower (jsTrim username)) =
           some existingUser →
       handleLoginRegister roster currentUser username verifiedFlag freshId =
         (roster, existingUser))
    ∧ (roster.find? (fun u => jsToLower u.username = jsToLower (jsTrim username)) = none →
       handleLoginRegister roster currentUser username verifiedFlag freshId =
         (roster ++ [⟨freshId, jsTrim username, verifiedFlag, none⟩],
          ⟨freshId, jsTrim username, verifiedFlag, none⟩))
    ∧ (roster.find? (fun u => jsToLower u.username = jsToLower (jsTrim username)) = none →
       ∀ username2 verifiedFlag2 freshId2 currentUser2,
         jsToLower (jsTrim username2) = jsToLower (jsTrim username) →
         jsTrim username2 ≠ "" →
         handleLoginRegister
           (roster ++ [⟨freshId, jsTrim username, verifiedFlag, none⟩]) currentUser2
           username2 verifiedFlag2 freshId2 =
           (roster ++ [⟨freshId, jsTrim username, verifiedFlag, none⟩],
            ⟨freshId, jsTrim username, verifiedFlag, none⟩)) := by
  refine ⟨?_, ?_, ?_⟩
  · intro existingUser hsome
    simp only [handleLoginRegister]
    rw [if_neg hne, hsome]
  · intro hnone
    simp only [handleLoginRegister]
    rw [if_neg hne, hnone]
    rw [updateUserProfile_append roster _ (by intro u hu; simpa using hfresh u hu)]
  · intro hnone username2 verifiedFlag2 freshId2 currentUser2 hlow hne2
    have hall := List.find?_eq_none.mp hnone
    simp only [handleLoginRegister]
    rw [if_neg hne2]
    have hfind2 : ((roster ++ [(⟨freshId, jsTrim username, verifiedFlag, none⟩ : UserProfile)]).find?
        (fun u => jsToLower u.username = jsToLower (jsTrim username2))) =
        some (⟨freshId, jsTrim username, verifiedFlag, none⟩ : UserProfile) := by
      rw [List.find?_append]
      have h1 : (roster.find? (fun u => jsToLower u.username = jsToLower (jsTrim username2)))
          = none := by
        rw [List.find?_eq_none]
        intro u hu
        have := hall u hu
        simpa [hlow] using this
      rw [h1]
      simp [hlow]
    rw [hfind2]

/-- Witness for claim C6: registering `ada` on an empty roster creates the
profile and makes it current. -/
theorem c6_register_or_login_witness :
    jsTrim "ada" ≠ ""
    ∧ (([] : List UserProfile).find?
          (fun u => jsToLower u.username = jsToLower (jsTrim "ada")) = none →
        handleLoginRegister [] DEFAULT_GUEST_USER_PROFILE "ada" false "id1" =
          ([⟨"id1", jsTrim "ada", false, none⟩], ⟨"id1", jsTrim "ada", false, none⟩)) :=
  ⟨by decide,
   (c6_register_or_login [] DEFAULT_GUEST_USER_PROFILE "ada" false "id1" (by decide)
      (by simp)).2.1⟩

/-- Counterexample to claim C6 as stated: a whitespace-only username
matches no profile in the empty roster, yet no new profile is created —
the call is rejected and both roster and current user are unchanged. -/
theorem c6_empty_username_rejected_cx :
    handleLoginRegister [] DEFAULT_GUEST_USER_PROFILE " " true "f1" =
        ([], DEFAULT_GUEST_USER_PROFILE)
    ∧ ([] : List UserProfile).find?
        (fun u => jsToLower u.username = jsToLower (jsTrim " ")) = none :=
  ⟨by decide, rfl⟩

/-- Claim C8: when the completion request fails, the failure is caught:
the fixed fallback model message is appended directly after the user
message in the active session, all earlier messages (including the
just-appended user message) are unchanged, other sessions are untouched,
and the loading flag is cleared. -/
theorem c8_send_failure_fallback (sessions : List StoredSession)
    (activeSessionId input : String) (act : StoredSession)
    (hfind : sessions.find? (fun s => s.id = activeSessionId) = some act) :
    handleSendMessage sessions activeSessionId input none =
      (sessions.map (fun s =>
          if s.id = activeSessionId then
            { act with
                title := if countUserMessages act.messages = 0 then autoTitle input
                  else act.title,
                messages := act.messages ++ [⟨Role.user, input⟩, fallbackErrorMessage] }
          else s),
       false) :=
  handleSendMessage_eq sessions activeSessionId input none act hfind

/-- Witness for claim C8 at a concrete session. -/
theorem c8_send_failure_fallback_witness :
    [newChatSession "1" DEFAULT_AI_SETTINGS].find? (fun s => s.id = "1") =
        some (newChatSession "1" DEFAULT_AI_SETTINGS)
    ∧ handleSendMessage [newChatSession "1" DEFAULT_AI_SETTINGS] "1" "hi" none =
      ([newChatSession "1" DEFAULT_AI_SETTINGS].map (fun s =>
          if s.id = "1" then
            { newChatSession "1" DEFAULT_AI_SETTINGS with
                title := if countUserMessages (newChatSession "1" DEFAULT_AI_SETTINGS).messages = 0
                  then autoTitle "hi" else (newChatSession "1" DEFAULT_AI_SETTINGS).title,
                messages := (newChatSession "1" DEFAULT_AI_SETTINGS).messages ++
                  [⟨Role.user, "hi"⟩, fallbackErrorMessage] }
          else s),
       false) :=
  ⟨rfl, c8_send_failure_fallback [newChatSession "1" DEFAULT_AI_SETTINGS] "1" "hi"
    (newChatSession "1" DEFAULT_AI_SETTINGS) rfl⟩

end V1

namespace V2

/-- Stored chat session in `src/unnamed/part_000`, which adds the
`ownerId` field naming the owning profile. -/
structure StoredSession where
  id : String
  title : String
  messages : List Message
  settings : AISettings
  isPublic : Bool
  isArchived : Bool
  ownerId : String
deriving DecidableEq, Repr

/-- The consolidated `AllUserSessions` object — a finite map from owner id
to that owner's session list — modelled as an association list (JavaScript
object keys are unique; the operations below preserve that). -/
abbrev Store := List (String × List StoredSession)

/-- Lookup `prevAllSessions[userId] || []`. -/
def getSessions (st : Store) (userId : String) : List StoredSession :=
  match st.find? (fun p => p.1 = userId) with
  | some p => p.2
  | none => []

/-- Object-spread update `{...prev, [userId]: sessions}`: replace the value
under an existing key in place, or add the key. -/
def setSessions : Store → String → List StoredSession → Store
  | [], userId, sessions => [(userId, sessions)]
  | p :: st, userId, sessions =>
    if p.1 = userId then (userId, sessions) :: st
    else p :: setSessions st userId sessions

/-- Partial session update (`Partial<StoredSession>`): one optional field
per session field. -/
structure SessionUpdates where
  id : Option String := none
  title : Option String := none
  messages : Option (List Message) := none
  settings : Option AISettings := none
  isPublic : Option Bool := none
  isArchived : Option Bool := none
  ownerId : Option String := none
deriving DecidableEq, Repr

/-- Object-spread merge `{...s, ...updates}`. -/
def applyUpdates (s : StoredSession) (u : SessionUpdates) : StoredSession :=
  ⟨u.id.getD s.id, u.title.getD s.title, u.messages.getD s.messages,
   u.settings.getD s.settings, u.isPublic.getD s.isPublic,
   u.isArchived.getD s.isArchived, u.ownerId.getD s.ownerId⟩

/-- Model of `addSession` (`src/unnamed/part_000` lines 191-199): append
the session to its owner's collection. -/
def addSession (st : Store) (s : StoredSession) : Store :=
  setSessions st s.ownerId (getSessions st s.ownerId ++ [s])

/-- Model of `updateSession` (lines 201-212): merge the partial fields into
the matching session of the given owner; no-op when not found. -/
def updateSession (st : Store) (sessionId userId : String) (u : SessionUpdates) : Store :=
  setSessions st userId
    ((getSessions st userId).map (fun s => if s.id = sessionId then applyUpdates s u else s))

/-- Model of `deleteSession` (lines 214-223): remove the session from the
given owner's collection. -/
def deleteSession (st : Store) (sessionId userId : String) : Store :=
  setSessions st userId ((getSessions st userId).filter (fun s => ¬ s.id = sessionId))

/-- Model of `archiveSession` (lines 225-227): an `updateSession` that
flips the archived flag
(`!allUserSessions[userId]?.find(s => s.id === sessionId)?.isArchived`). -/
def archiveSession (st : Store) (sessionId userId : String) : Store :=
  updateSession st sessionId userId
    { isArchived := some (!((((getSessions st userId).find? (fun s => s.id = sessionId)).map
        (fun s => s.isArchived)).getD false)) }

/-- One store operation. -/
inductive StoreOp where
  | add (s : StoredSession)
  | update (sessionId userId : String) (u : SessionUpdates)
  | del (sessionId userId : String)
  | archive (sessionId userId : String)
deriving DecidableEq, Repr

def applyOp (st : Store) : StoreOp → Store
  | .add s => addSession st s
  | .update sessionId userId u => updateSession st sessionId userId u
  | .del sessionId userId => deleteSession st sessionId userId
  | .archive sessionId userId => archiveSession st sessionId userId

def applyOps (st : Store) : List StoreOp → Store
  | [] => st
  | op :: ops => applyOps (applyOp st op) ops

/-- Operation as the application issues it: an added session carries a
fresh `crypto.randomUUID()` id, and no call site ever places `id` or
`ownerId` into a partial update (the callers update only `title`,
`messages`, `settings`, `isPublic` and `isArchived`). -/
def GoodOp (st : Store) : StoreOp → Prop
  | .add s => ∀ p ∈ st, ∀ t ∈ p.2, t.id ≠ s.id
  | .update _ _ u => u.id = none ∧ u.ownerId = none
  | .del _ _ => True
  | .archive _ _ => True

def GoodOps (st : Store) : List StoreOp → Prop
  | [] => True
  | op :: ops => GoodOp st op ∧ GoodOps (applyOp st op) ops

instance (st : Store) (op : StoreOp) : Decidable (GoodOp st op) := by
  cases op <;> simp only [GoodOp] <;> infer_instance

def decGoodOps (st : Store) : (ops : List StoreOp) → Decidable (GoodOps st ops)
  | [] => isTrue trivial
  | op :: ops => @instDecidableAnd _ _ inferInstance (decGoodOps (applyOp st op) ops)

instance (st : Store) (ops : List StoreOp) : Decidable (GoodOps st ops) := decGoodOps st ops

/-- Sessions stored under an owner key all carry that owner's id. -/
def OwnerKeyed (st : Store) : Prop :=
  ∀ p ∈ st, ∀ s ∈ p.2, s.ownerId = p.1

/-- No session id appears under two different owner keys. -/
def NoCrossOwner (st : Store) : Prop :=
  ∀ p ∈ st, ∀ q ∈ st, p.1 ≠ q.1 → ∀ s ∈ p.2, ∀ t ∈ q.2, s.id ≠ t.id

/-- The partition invariant of the claim. -/
def Partitioned (st : Store) : Prop := OwnerKeyed st ∧ NoCrossOwner st

instance (st : Store) : Decidable (OwnerKeyed st) := by
  unfold OwnerKeyed; infer_instance

instance (st : Store) : Decidable (NoCrossOwner st) := by
  unfold NoCrossOwner; infer_instance

instance (st : Store) : Decidable (Partitioned st) := by
  unfold Partitioned; infer_instance

end V2

namespace V2

theorem mem_setSessions {st : Store} {userId : String} {l : List StoredSession}
    {q : String × List StoredSession} (hq : q ∈ setSessions st userId l) :
    q = (userId, l) ∨ q ∈ st := by
  induction st with
  | nil => simpa [setSessions] using hq
  | cons p st ih =>
    by_cases hp : p.1 = userId
    · rw [setSessions, if_pos hp] at hq
      rcases List.mem_cons.mp hq with h | h
      · exact Or.inl h
      · exact Or.inr (List.mem_cons_of_mem p h)
    · rw [setSessions, if_neg hp] at hq
      rcases List.mem_cons.mp hq with h | h
      · exact Or.inr (h ▸ List.mem_cons_self p st)
      · rcases ih h with h2 | h2
        · exact Or.inl h2
        · exact Or.inr (List.mem_cons_of_mem p h2)

theorem mem_getSessions {st : Store} {userId : String} {s : StoredSession}
    (h : s ∈ getSessions st userId) : ∃ p ∈ st, p.1 = userId ∧ s ∈ p.2 := by
  unfold getSessions at h
  cases hf : st.find? (fun p => p.1 = userId) with
  | none => rw [hf] at h; simp at h
  | some p =>
    rw [hf] at h
    exact ⟨p, List.mem_of_find?_eq_some hf, by simpa using List.find?_some hf, h⟩

theorem applyUpdates_id (s : StoredSession) (u : SessionUpdates) (h : u.id = none) :
    (applyUpdates s u).id = s.id := by
  simp [applyUpdates, h]

theorem applyUpdates_ownerId (s : StoredSession) (u : SessionUpdates) (h : u.ownerId = none) :
    (applyUpdates s u).ownerId = s.ownerId := by
  simp [applyUpdates, h]

theorem partitioned_setSessions (st : Store) (userId : String)
    (newList : List StoredSession) (hp : Partitioned st)
    (hown : ∀ s ∈ newList, s.ownerId = userId)
    (hids : ∀ s ∈ newList,
      (∃ p ∈ st, p.1 = userId ∧ ∃ t ∈ p.2, t.id = s.id) ∨
      (∀ p ∈ st, ∀ t ∈ p.2, t.id ≠ s.id)) :
    Partitioned (setSessions st userId newList) := by
  obtain ⟨hok, hnc⟩ := hp
  constructor
  · intro q hq s hs
    rcases mem_setSessions hq with rfl | hq2
    · exact hown s hs
    · exact hok q hq2 s hs
  · intro P hP Q hQ hne s hs t ht
    rcases mem_setSessions hP with rfl | hP2 <;> rcases mem_setSessions hQ with rfl | hQ2
    · exact absurd rfl hne
    · rcases hids s hs with ⟨p, hpmem, hpkey, t0, ht0mem, ht0id⟩ | hfresh
      · have hkey : p.1 ≠ Q.1 := by
          rw [hpkey]
          simpa using hne
        have := hnc p hpmem Q hQ2 hkey t0 ht0mem t ht
        rw [← ht0id]
        exact this
      · exact fun hst => (hfresh Q hQ2 t ht) hst.symm
    · rcases hids t ht with ⟨p, hpmem, hpkey, t0, ht0mem, ht0id⟩ | hfresh
      · have hkey : P.1 ≠ p.1 := by
          rw [hpkey]
          exact hne
        have := hnc P hP2 p hpmem hkey s hs t0 ht0mem
        rw [← ht0id]
        exact this
      · exact hfresh P hP2 s hs
    · exact hnc P hP2 Q hQ2 hne s hs t ht

theorem partitioned_updateSession (st : Store) (sessionId userId : String)
    (u : SessionUpdates) (hid : u.id = none) (hown : u.ownerId = none)
    (hp : Partitioned st) : Partitioned (updateSession st sessionId userId u) := by
  apply partitioned_setSessions st userId _ hp
  · intro s hs
    obtain ⟨s0, hs0, rfl⟩ := List.mem_map.mp hs
    obtain ⟨p, hpmem, hpkey, hs0p⟩ := mem_getSessions hs0
    have hsown : s0.ownerId = userId := hpkey ▸ hp.1 p hpmem s0 hs0p
    by_cases hcase : s0.id = sessionId
    · rw [if_pos hcase, applyUpdates_ownerId s0 u hown]
      exact hsown
    · rw [if_neg hcase]
      exact hsown
  · intro s hs
    obtain ⟨s0, hs0, rfl⟩ := List.mem_map.mp hs
    obtain ⟨p, hpmem, hpkey, hs0p⟩ := mem_getSessions hs0
    left
    refine ⟨p, hpmem, hpkey, s0, hs0p, ?_⟩
    by_cases hcase : s0.id = sessionId
    · rw [if_pos hcase, applyUpdates_id s0 u hid]
    · rw [if_neg hcase]

theorem partitioned_applyOp (st : Store) (op : StoreOp) (hp : Partitioned st)
    (hg : GoodOp st op) : Partitioned (applyOp st op) := by
  cases op with
  | add s =>
    apply partitioned_setSessions st s.ownerId _ hp
    · intro s1 hs1
      rcases List.mem_append.mp hs1 with h | h
      · obtain ⟨p, hpmem, hpkey, hsp⟩ := mem_getSessions h
        exact hpkey ▸ hp.1 p hpmem s1 hsp
      · rw [List.mem_singleton.mp h]
    · intro s1 hs1
      rcases List.mem_append.mp hs1 with h | h
      · obtain ⟨p, hpmem, hpkey, hsp⟩ := mem_getSessions h
        exact Or.inl ⟨p, hpmem, hpkey, s1, hsp, rfl⟩
      · rw [List.mem_singleton.mp h]
        exact Or.inr hg
  | update sessionId userId u =>
    exact partitioned_updateSession st sessionId userId u hg.1 hg.2 hp
  | del sessionId userId =>
    apply partitioned_setSessions st userId _ hp
    · intro s hs
      obtain ⟨p, hpmem, hpkey, hsp⟩ := mem_getSessions (List.mem_of_mem_filter hs)
      exact hpkey ▸ hp.1 p hpmem s hsp
    · intro s hs
      obtain ⟨p, hpmem, hpkey, hsp⟩ := mem_getSessions (List.mem_of_mem_filter hs)
      exact Or.inl ⟨p, hpmem, hpkey, s, hsp, rfl⟩
  | archive sessionId userId =>
    exact partitioned_updateSession st sessionId userId _ rfl rfl hp

/-- Claim C3: the empty store is partitioned by owner, and the partition
invariant — every session stored under an owner's key carries that owner's
id, and no session id appears under two different owners — is preserved by
any sequence of `addSession`, `updateSession`, `deleteSession` and
`archiveSession` calls as the application issues them (added sessions
carry fresh ids; partial updates never touch `id` or `ownerId`).  Every
reachable store state therefore satisfies the invariant. -/
theorem c3_sessions_partitioned_by_owner :
    Partitioned ([] : Store)
    ∧ (∀ (st : Store) (ops : List StoreOp),
        Partitioned st → GoodOps st ops → Partitioned (applyOps st ops)) := by
  constructor
  · exact ⟨fun p hp => absurd hp (List.not_mem_nil p),
           fun p hp => absurd hp (List.not_mem_nil p)⟩
  · intro st ops
    induction ops generalizing st with
    | nil =>
      intro hp _
      exact hp
    | cons op ops ih =>
      intro hp hgo
      exact ih (applyOp st op) (partitioned_applyOp st op hp hgo.1) hgo.2

/-- Sample operation sequence exercising all four store operations. -/
def c3SampleOps : List StoreOp :=
  [StoreOp.add ⟨"s1", "New Chat", [], DEFAULT_AI_SETTINGS, false, false, "alice"⟩,
   StoreOp.add ⟨"s2", "New Chat", [], DEFAULT_AI_SETTINGS, false, false, "bob"⟩,
   StoreOp.update "s1" "alice" { title := some "Hi" },
   StoreOp.archive "s1" "alice",
   StoreOp.del "s2" "bob"]

/-- Witness for claim C3 on a concrete operation sequence. -/
theorem c3_sessions_partitioned_by_owner_witness :
    Partitioned ([] : Store)
    ∧ GoodOps ([] : Store) c3SampleOps
    ∧ Partitioned (applyOps ([] : Store) c3SampleOps) :=
  ⟨c3_sessions_partitioned_by_owner.1, by decide,
   c3_sessions_partitioned_by_owner.2 [] c3SampleOps
     c3_sessions_partitioned_by_owner.1 (by decide)⟩

end V2

namespace V2

/-- Model of the startup API-key check in `src/unnamed/part_000`
(lines 479-487, an effect with an empty dependency list, so it runs once
at mount and is never re-run): the key is missing when the environment
variable is absent, empty (JavaScript falsiness) or the placeholder
`YOUR_API_KEY`.  The resulting flag is a function of the startup
environment only; no later state transition recomputes it, and nothing in
the application ever resets it to `false`. -/
def checkApiKeyMissing : Option String → Bool
  | none => true
  | some k => k = "" ∨ k = "YOUR_API_KEY"

/-- The persistent banner (lines 1272-1276) renders exactly when the
missing-key flag is set. -/
def apiKeyBannerShown (isApiKeyMissing : Bool) : Bool := isApiKeyMissing

/-- The `disabled` attribute of the chat input (line 1299). -/
def chatInputDisabled (isLoading isApiKeyMissing : Bool) : Bool :=
  isLoading || isApiKeyMissing

/-- The `disabled` attribute of the send button (line 1301). -/
def sendButtonDisabled (isLoading : Bool) (inputValue : String)
    (isApiKeyMissing : Bool) : Bool :=
  isLoading || jsTrim inputValue = "" || isApiKeyMissing

/-- Guard chain of `handleSendMessage` in `src/unnamed/part_000`
(lines 352-365): whether the completion request is issued. -/
def sendIssuesRequest (inputValue : String) (isLoading hasChat hasActiveSession
    isGuest isApiKeyMissing : Bool) : Bool :=
  if jsTrim inputValue = "" || isLoading || !hasChat || !hasActiveSession then false
  else if isGuest then false
  else if isApiKeyMissing then false
  else true

/-- Chat-initialisation effect (lines 510-538): a chat instance is created
only when the key is present and a session is active; otherwise the chat
is cleared. -/
def chatInstanceCreated (isApiKeyMissing hasActiveSession : Bool) : Bool :=
  !isApiKeyMissing && hasActiveSession

/-- Claim C7: a missing or invalid API credential, detected by the
once-at-startup check, yields a sticky flag that shows the persistent
banner, disables the chat input and the send button entirely, prevents a
chat instance from being created, and makes the send handler return before
any completion request, whatever the other state components are.  The
check reads only the startup environment (empty effect dependency list)
and no transition resets the flag, so it is never retried automatically. -/
theorem c7_missing_key_disables_send (apiKey : Option String)
    (hmissing : checkApiKeyMissing apiKey = true) :
    apiKeyBannerShown (checkApiKeyMissing apiKey) = true
    ∧ (∀ isLoading, chatInputDisabled isLoading (checkApiKeyMissing apiKey) = true)
    ∧ (∀ isLoading inputValue,
        sendButtonDisabled isLoading inputValue (checkApiKeyMissing apiKey) = true)
    ∧ (∀ hasActiveSession,
        chatInstanceCreated (checkApiKeyMissing apiKey) hasActiveSession = false)
    ∧ (∀ inputValue isLoading hasChat hasActiveSession isGuest,
        sendIssuesRequest inputValue isLoading hasChat hasActiveSession isGuest
          (checkApiKeyMissing apiKey) = false) := by
  rw [hmissing]
  refine ⟨rfl, ?_, ?_, ?_, ?_⟩
  · intro isLoading
    simp [chatInputDisabled]
  · intro isLoading inputValue
    simp [sendButtonDisabled]
  · intro hasActiveSession
    simp [chatInstanceCreated]
  · intro inputValue isLoading hasChat hasActiveSession isGuest
    simp only [sendIssuesRequest, if_pos]
    split
    · rfl
    · split
      · rfl
      · rfl

/-- Witness for claim C7 with the credential absent. -/
theorem c7_missing_key_disables_send_witness :
    checkApiKeyMissing none = true
    ∧ (apiKeyBannerShown (checkApiKeyMissing none) = true
      ∧ (∀ isLoading, chatInputDisabled isLoading (checkApiKeyMissing none) = true)
      ∧ (∀ isLoading inputValue,
          sendButtonDisabled isLoading inputValue (checkApiKeyMissing none) = true)
      ∧ (∀ hasActiveSession,
          chatInstanceCreated (checkApiKeyMissing none) hasActiveSession = false)
      ∧ (∀ inputValue isLoading hasChat hasActiveSession isGuest,
          sendIssuesRequest inputValue isLoading hasChat hasActiveSession isGuest
            (checkApiKeyMissing none) = false)) :=
  ⟨rfl, c7_missing_key_disables_send none rfl⟩

end V2

/-- Raw value stored under a persistence key: absent, present but failing
JSON deserialisation, or present and parsed to the expected shape. -/
inductive StoredValue (α : Type) where
  | absent
  | malformed
  | parsed (value : α)
deriving DecidableEq, Repr

namespace V1

/-- Partial `AISettings` as read back from JSON
(`{...DEFAULT_AI_SETTINGS, ...parsedSettings}` merges it over defaults). -/
structure AISettingsPatch where
  model : Option String := none
  systemInstruction : Option String := none
  temperature : Option Rat := none
  topK : Option Rat := none
  topP : Option Rat := none
  intelligentMode : Option String := none
  codeIsNonbro : Option Bool := none
deriving DecidableEq, Repr

/-- Object-spread merge of a parsed patch over default settings. -/
def mergeSettings (d : AISettings) (p : AISettingsPatch) : AISettings :=
  ⟨p.model.getD d.model, p.systemInstruction.or d.systemInstruction,
   p.temperature.or d.temperature, p.topK.or d.topK, p.topP.or d.topP,
   p.intelligentMode.or d.intelligentMode, p.codeIsNonbro.or d.codeIsNonbro⟩

/-- Stored session as read back from JSON before migration (older blobs
may lack `settings`, `isPublic` or `isArchived`). -/
structure StoredSessionRaw where
  id : String
  title : String
  messages : List Message
  settings : Option AISettingsPatch := none
  isPublic : Option Bool := none
  isArchived : Option Bool := none
deriving DecidableEq, Repr

/-- Migration applied on load (`src/index.tsx` lines 231-236):
`settings: {...DEFAULT_AI_SETTINGS, ...(s.settings || {})}`,
`isPublic: s.isPublic || false`, `isArchived: s.isArchived || false`. -/
def migrateSession (raw : StoredSessionRaw) : StoredSession :=
  ⟨raw.id, raw.title, raw.messages,
   mergeSettings DEFAULT_AI_SETTINGS (raw.settings.getD {}),
   raw.isPublic.getD false, raw.isArchived.getD false⟩

/-- Persistence keys read by the `App` load effect: the global settings
blob and the current user's session blob. -/
structure AppStorage where
  aiSettings : StoredValue AISettingsPatch
  chatSessions : StoredValue (List StoredSessionRaw)
deriving DecidableEq, Repr

/-- State produced by the load effect, plus the storage left behind. -/
structure AppLoadResult where
  aiSettings : AISettings
  sessions : List StoredSession
  activeSessionId : Option String
  storage : AppStorage
deriving DecidableEq, Repr

/-- Model of the `App` settings/sessions load effect in `src/index.tsx`
(lines 215-251), on the non-shared-view path.  A malformed settings blob
is caught and logged and the state keeps its prior value
(`aiSettingsState`, the defaults at mount) — the key is NOT removed.  A
malformed sessions blob is caught and logged, the key is removed, and
`handleNewChat(true)` builds one fresh session from the state settings
still in scope (`freshId` stands for `Date.now().toString()`).  The
function is total: no exception escapes. -/
def loadApp (st : AppStorage) (aiSettingsState : AISettings) (freshId : String) :
    AppLoadResult :=
  let settings := match st.aiSettings with
    | StoredValue.parsed p => mergeSettings DEFAULT_AI_SETTINGS p
    | _ => aiSettingsState
  match st.chatSessions with
  | StoredValue.parsed raws =>
    match raws.map migrateSession with
    | [] => ⟨settings, [newChatSession freshId aiSettingsState], some freshId, st⟩
    | m :: rest =>
      let migrated := m :: rest
      let firstActive := (migrated.find? (fun s => s.isArchived = false)).getD m
      ⟨settings, migrated, some firstActive.id, st⟩
  | StoredValue.malformed =>
    ⟨settings, [newChatSession freshId aiSettingsState], some freshId,
     { st with chatSessions := StoredValue.absent }⟩
  | StoredValue.absent =>
    ⟨settings, [newChatSession freshId aiSettingsState], some freshId, st⟩

end V1

namespace V2

/-- Persistence keys read by the `UserProvider` load effect in
`src/unnamed/part_000`: the profile roster, the consolidated session map
and the raw (never JSON-parsed) last-active-user id. -/
structure ProviderStorage where
  registeredUsers : StoredValue (List UserProfile)
  allUserChatSessions : StoredValue Store
  lastActiveUserId : Option String
deriving DecidableEq, Repr

/-- State produced by the provider load effect, plus the storage left
behind. -/
structure ProviderLoadResult where
  registeredUsers : List UserProfile
  allUserSessions : Store
  currentUser : UserProfile
  storage : ProviderStorage
deriving DecidableEq, Repr

/-- Storage after the catch branch removed all three keys. -/
def clearedProviderStorage : ProviderStorage :=
  ⟨StoredValue.absent, StoredValue.absent, none⟩

/-- Model of the `UserProvider` load effect in `src/unnamed/part_000`
(lines 95-126).  All three keys are read inside one `try` block: a
malformed roster blob throws before the sessions are read, and the single
`catch` removes all three keys; a malformed sessions blob throws after the
roster state was already set, and the catch again removes all three keys
(including the intact roster blob).  The function is total: no exception
escapes. -/
def loadUserProvider (st : ProviderStorage) : ProviderLoadResult :=
  match st.registeredUsers with
  | StoredValue.malformed =>
    ⟨[], [], DEFAULT_GUEST_USER_PROFILE, clearedProviderStorage⟩
  | ru =>
    let roster := match ru with | StoredValue.parsed r => r | _ => []
    match st.allUserChatSessions with
    | StoredValue.malformed =>
      ⟨roster, [], DEFAULT_GUEST_USER_PROFILE, clearedProviderStorage⟩
    | aus =>
      let sessions := match aus with | StoredValue.parsed s => s | _ => []
      let currentUser := match st.lastActiveUserId with
        | some uid => (roster.find? (fun p => p.id = uid)).getD DEFAULT_GUEST_USER_PROFILE
        | none => DEFAULT_GUEST_USER_PROFILE
      ⟨roster, sessions, currentUser, st⟩

end V2

/-- Claim C9 (amended): every malformed persistence value is caught at
load time and a default is substituted, and no exception escapes (the
load functions are total), but the claimed per-key recovery does not hold
uniformly.  In `src/index.tsx` a malformed settings blob is only logged —
the offending key is NOT cleared — while a malformed sessions blob is
cleared and replaced by one fresh session.  In `src/unnamed/part_000` all
three keys are read in a single try block, so a malformed roster blob
aborts the load of the (possibly intact) sessions key, and the catch
clears all three keys rather than only the offending one. -/
theorem c9_corrupt_persistence_handling :
    (∀ (st : V1.AppStorage) (s : AISettings) (freshId : String),
       st.aiSettings = StoredValue.malformed →
       (V1.loadApp st s freshId).aiSettings = s
       ∧ (V1.loadApp st s freshId).storage.aiSettings = StoredValue.malformed)
    ∧ (∀ (st : V1.AppStorage) (s : AISettings) (freshId : String),
       st.chatSessions = StoredValue.malformed →
       (V1.loadApp st s freshId).sessions = [V1.newChatSession freshId s]
       ∧ (V1.loadApp st s freshId).activeSessionId = some freshId
       ∧ (V1.loadApp st s freshId).storage.chatSessions = StoredValue.absent)
    ∧ (∀ st2 : V2.ProviderStorage,
       st2.registeredUsers = StoredValue.malformed →
       V2.loadUserProvider st2 =
         ⟨[], [], DEFAULT_GUEST_USER_PROFILE, V2.clearedProviderStorage⟩)
    ∧ (∀ (st2 : V2.ProviderStorage) (roster : List UserProfile),
       st2.registeredUsers = StoredValue.parsed roster →
       st2.allUserChatSessions = StoredValue.malformed →
       V2.loadUserProvider st2 =
         ⟨roster, [], DEFAULT_GUEST_USER_PROFILE, V2.clearedProviderStorage⟩) := by
  refine ⟨?_, ?_, ?_, ?_⟩
  · rintro ⟨a, c⟩ s freshId h
    simp only at h
    subst h
    cases c with
    | parsed raws =>
      cases hm : raws.map V1.migrateSession with
      | nil => simp [V1.loadApp, hm]
      | cons m rest => simp [V1.loadApp, hm]
    | malformed => simp [V1.loadApp]
    | absent => simp [V1.loadApp]
  · rintro ⟨a, c⟩ s freshId h
    simp only at h
    subst h
    cases a <;> simp [V1.loadApp]
  · rintro ⟨r, c, l⟩ h
    simp only at h
    subst h
    rfl
  · rintro ⟨r, c, l⟩ roster hr hc
    simp only at hr hc
    subst hr
    subst hc
    rfl

/-- Witness for claim C9 on concrete corrupt storages. -/
theorem c9_corrupt_persistence_handling_witness :
    ((⟨StoredValue.malformed, StoredValue.absent⟩ : V1.AppStorage).aiSettings =
        StoredValue.malformed
      ∧ (V1.loadApp ⟨StoredValue.malformed, StoredValue.absent⟩ DEFAULT_AI_SETTINGS
          "f").aiSettings = DEFAULT_AI_SETTINGS
      ∧ (V1.loadApp ⟨StoredValue.malformed, StoredValue.absent⟩ DEFAULT_AI_SETTINGS
          "f").storage.aiSettings = StoredValue.malformed)
    ∧ ((⟨StoredValue.malformed, StoredValue.parsed [], some "u"⟩ :
          V2.ProviderStorage).registeredUsers = StoredValue.malformed
      ∧ V2.loadUserProvider ⟨StoredValue.malformed, StoredValue.parsed [], some "u"⟩ =
          ⟨[], [], DEFAULT_GUEST_USER_PROFILE, V2.clearedProviderStorage⟩) :=
  ⟨⟨rfl,
    (c9_corrupt_persistence_handling.1 ⟨StoredValue.malformed, StoredValue.absent⟩
      DEFAULT_AI_SETTINGS "f" rfl).1,
    (c9_corrupt_persistence_handling.1 ⟨StoredValue.malformed, StoredValue.absent⟩
      DEFAULT_AI_SETTINGS "f" rfl).2⟩,
   ⟨rfl,
    c9_corrupt_persistence_handling.2.2.1 ⟨StoredValue.malformed, StoredValue.parsed [],
      some "u"⟩ rfl⟩⟩

/-- Counterexample to claim C9 as stated: a malformed `aiSettings` blob is
caught but the offending key survives the load uncleared, and in the
consolidated variant a malformed roster blob prevents the intact sessions
blob from loading and clears its key too. -/
theorem c9_offending_key_not_cleared_cx :
    (V1.loadApp ⟨StoredValue.malformed, StoredValue.absent⟩ DEFAULT_AI_SETTINGS
        "f").storage.aiSettings = StoredValue.malformed
    ∧ (StoredValue.malformed : StoredValue V1.AISettingsPatch) ≠ StoredValue.absent
    ∧ (V2.loadUserProvider
        ⟨StoredValue.malformed,
         StoredValue.parsed [("u", [⟨"s1", "t", [], DEFAULT_AI_SETTINGS, false, false, "u"⟩])],
         some "u"⟩).allUserSessions = []
    ∧ (V2.loadUserProvider
        ⟨StoredValue.malformed,
         StoredValue.parsed [("u", [⟨"s1", "t", [], DEFAULT_AI_SETTINGS, false, false, "u"⟩])],
         some "u"⟩).storage.allUserChatSessions = StoredValue.absent :=
  ⟨rfl, by simp, rfl, rfl⟩

namespace Share

/-- Lowercase hexadecimal digit, as `JSON.stringify` emits in `\u00XX`
escapes. -/
def hexDigit (n : Nat) : Char :=
  if n < 10 then Char.ofNat ('0'.toNat + n) else Char.ofNat ('a'.toNat + n - 10)

/-- Escape of one character inside a JSON string literal, per
`JSON.stringify` (ECMA-262 QuoteJSONString): quote, backslash, the five
short control escapes, `\u00XX` for the remaining control characters, and
every other character verbatim. -/
def escChar (c : Char) : List Char :=
  if c = '"' then ['\\', '"']
  else if c = '\\' then ['\\', '\\']
  else if c = '\x08' then ['\\', 'b']
  else if c = '\t' then ['\\', 't']
  else if c = '\n' then ['\\', 'n']
  else if c = '\x0c' then ['\\', 'f']
  else if c = '\r' then ['\\', 'r']
  else if c.toNat < 32 then ['\\', 'u', '0', '0', hexDigit (c.toNat / 16), hexDigit (c.toNat % 16)]
  else [c]

def escapeString (l : List Char) : List Char := l.flatMap escChar

/-- A JSON string literal: quote, escaped content, quote. -/
def quoteString (l : List Char) : List Char := '"' :: (escapeString l ++ ['"'])

def roleText : Role → List Char
  | Role.user => "user".data
  | Role.model => "model".data

/-- Fragment of `JSON.stringify` for one message object (insertion-order
keys `role`, `text`). -/
def stringifyMessage (m : Message) : List Char :=
  "\x7b\"role\":".data ++
    (quoteString (roleText m.role) ++
      (",\"text\":".data ++ (quoteString m.text.data ++ "\x7d".data)))

def stringifyMessages : List Message → List Char
  | [] => []
  | [m] => stringifyMessage m
  | m :: m2 :: rest => stringifyMessage m ++ ',' :: stringifyMessages (m2 :: rest)

/-- Fragment of `JSON.stringify` for the shared object
`{title: activeSession.title, messages: activeSession.messages}`
built by `ShareModal` (insertion-order keys `title`, `messages`). -/
def stringifyShare (title : String) (messages : List Message) : List Char :=
  "\x7b\"title\":".data ++
    (quoteString title.data ++
      (",\"messages\":[".data ++ (stringifyMessages messages ++ "]\x7d".data)))

/-- Standard base64 alphabet character for a six-bit value. -/
def base64Char (n : Nat) : Char :=
  if n < 26 then Char.ofNat ('A'.toNat + n)
  else if n < 52 then Char.ofNat ('a'.toNat + (n - 26))
  else if n < 62 then Char.ofNat ('0'.toNat + (n - 52))
  else if n = 62 then '+'
  else '/'

def base64DecodeChar (c : Char) : Option Nat :=
  if 'A' ≤ c ∧ c ≤ 'Z' then some (c.toNat - 'A'.toNat)
  else if 'a' ≤ c ∧ c ≤ 'z' then some (c.toNat - 'a'.toNat + 26)
  else if '0' ≤ c ∧ c ≤ '9' then some (c.toNat - '0'.toNat + 52)
  else if c = '+' then some 62
  else if c = '/' then some 63
  else none

/-- Standard base64 of a byte sequence, with `=` padding. -/
def base64Encode : List Nat → List Char
  | [] => []
  | [b1] => [base64Char (b1 / 4), base64Char (b1 % 4 * 16), '=', '=']
  | [b1, b2] =>
    [base64Char (b1 / 4), base64Char (b1 % 4 * 16 + b2 / 16), base64Char (b2 % 16 * 4), '=']
  | b1 :: b2 :: b3 :: rest =>
    base64Char (b1 / 4) :: base64Char (b1 % 4 * 16 + b2 / 16) ::
      base64Char (b2 % 16 * 4 + b3 / 64) :: base64Char (b3 % 64) :: base64Encode rest

def base64Decode : List Char → Option (List Nat)
  | [] => some []
  | c1 :: c2 :: c3 :: c4 :: rest =>
    match base64DecodeChar c1, base64DecodeChar c2 with
    | some s1, some s2 =>
      if c3 = '=' ∧ c4 = '=' ∧ rest = [] then some [s1 * 4 + s2 / 16]
      else if c4 = '=' ∧ rest = [] then
        match base64DecodeChar c3 with
        | some s3 => some [s1 * 4 + s2 / 16, s2 % 16 * 16 + s3 / 4]
        | none => none
      else
        match base64DecodeChar c3, base64DecodeChar c4 with
        | some s3, some s4 =>
          match base64Decode rest with
          | some bs => some ((s1 * 4 + s2 / 16) :: (s2 % 16 * 16 + s3 / 4) :: (s3 % 4 * 64 + s4) :: bs)
          | none => none
        | _, _ => none
    | _, _ => none
  | _ => none

/-- ASCII whitespace, stripped by the forgiving-base64 decode of `atob`. -/
def isAsciiWhitespace (c : Char) : Bool :=
  c = ' ' ∨ c = '\t' ∨ c = '\n' ∨ c = '\x0c' ∨ c = '\r'

/-- Model of the browser `btoa` built-in: base64 of the code units; throws
(`none`) when any code unit exceeds 255. -/
def btoa (s : String) : Option String :=
  if s.data.all (fun c => c.toNat ≤ 255) then
    some ⟨base64Encode (s.data.map Char.toNat)⟩
  else none

/-- Model of the browser `atob` built-in at the fragment the round-trip
exercises: strip ASCII whitespace, then strict base64.  The real
forgiving-base64 also accepts some non-multiple-of-four inputs by
truncating bits; on those inputs it yields bytes that are not the encoded
ones, so for the round-trip claims `none` stands for any outcome other
than the original bytes. -/
def atob (s : String) : Option String :=
  match base64Decode (s.data.filter (fun c => !isAsciiWhitespace c)) with
  | some bytes => some ⟨bytes.map Char.ofNat⟩
  | none => none

/-- Hexadecimal digit value accepted by the JSON `\uXXXX` escape. -/
def hexVal (c : Char) : Option Nat :=
  if '0' ≤ c ∧ c ≤ '9' then some (c.toNat - '0'.toNat)
  else if 'a' ≤ c ∧ c ≤ 'f' then some (c.toNat - 'a'.toNat + 10)
  else if 'A' ≤ c ∧ c ≤ 'F' then some (c.toNat - 'A'.toNat + 10)
  else none

/-- Value of a four-digit hexadecimal escape payload. -/
def hex4 (h1 h2 h3 h4 : Char) : Option Nat :=
  match hexVal h1, hexVal h2, hexVal h3, hexVal h4 with
  | some v1, some v2, some v3, some v4 => some (((v1 * 16 + v2) * 16 + v3) * 16 + v4)
  | _, _, _, _ => none

/-- Body of a JSON string literal after the opening quote: content up to
the closing quote, with escapes resolved; raw control characters are
rejected, as `JSON.parse` does. -/
def parseStringBody : List Char → Option (List Char × List Char)
  | [] => none
  | c :: rest =>
    if c = '"' then some ([], rest)
    else if c = '\\' then
      match rest with
      | [] => none
      | e :: r =>
        if e = '"' then (fun p => ('"' :: p.1, p.2)) <$> parseStringBody r
        else if e = '\\' then (fun p => ('\\' :: p.1, p.2)) <$> parseStringBody r
        else if e = '/' then (fun p => ('/' :: p.1, p.2)) <$> parseStringBody r
        else if e = 'b' then (fun p => ('\x08' :: p.1, p.2)) <$> parseStringBody r
        else if e = 't' then (fun p => ('\t' :: p.1, p.2)) <$> parseStringBody r
        else if e = 'n' then (fun p => ('\n' :: p.1, p.2)) <$> parseStringBody r
        else if e = 'f' then (fun p => ('\x0c' :: p.1, p.2)) <$> parseStringBody r
        else if e = 'r' then (fun p => ('\r' :: p.1, p.2)) <$> parseStringBody r
        else if e = 'u' then
          match r with
          | h1 :: h2 :: h3 :: h4 :: r2 =>
            match hex4 h1 h2 h3 h4 with
            | some n =>
              if Nat.isValidChar n then
                (fun p => (Char.ofNat n :: p.1, p.2)) <$> parseStringBody r2
              else none
            | none => none
          | _ => none
        else none
    else if c.toNat < 32 then none
    else (fun p => (c :: p.1, p.2)) <$> parseStringBody rest
termination_by structural l => l

/-- A JSON string literal, opening quote included. -/
def parseJsonString : List Char → Option (List Char × List Char)
  | '"' :: rest => parseStringBody rest
  | _ => none

/-- Consume an expected literal character sequence. -/
def dropLit : List Char → List Char → Option (List Char)
  | [], rest => some rest
  | _ :: _, [] => none
  | c :: cs, d :: rest => if d = c then dropLit cs rest else none

/-- One message object of the encoded shape (the restriction of
`JSON.parse` to the objects `stringifyMessage` emits). -/
def parseMessage (l : List Char) : Option (Message × List Char) :=
  match dropLit "\x7b\"role\":".data l with
  | none => none
  | some r1 =>
    match parseJsonString r1 with
    | none => none
    | some (roleChars, r2) =>
      match dropLit ",\"text\":".data r2 with
      | none => none
      | some r3 =>
        match parseJsonString r3 with
        | none => none
        | some (textChars, r4) =>
          match dropLit "\x7d".data r4 with
          | none => none
          | some r5 =>
            if roleChars = "user".data then some (⟨Role.user, ⟨textChars⟩⟩, r5)
            else if roleChars = "model".data then some (⟨Role.model, ⟨textChars⟩⟩, r5)
            else none

/-- Comma-separated message objects up to the closing bracket. -/
def parseMessagesAux : Nat → List Char → Option (List Message × List Char)
  | 0, _ => none
  | fuel + 1, l =>
    match parseMessage l with
    | none => none
    | some (m, r) =>
      match r with
      | ',' :: r2 =>
        match parseMessagesAux fuel r2 with
        | some (ms, r3) => some (m :: ms, r3)
        | none => none
      | ']' :: r2 => some ([m], r2)
      | _ => none

/-- The restriction of `JSON.parse` to the object shape produced by the
share encode: `{title: string, messages: Message[]}` with insertion-order
keys, requiring the whole input to be consumed. -/
def parseShare (l : List Char) : Option (String × List Message) :=
  match dropLit "\x7b\"title\":".data l with
  | none => none
  | some r1 =>
    match parseJsonString r1 with
    | none => none
    | some (titleChars, r2) =>
      match dropLit ",\"messages\":[".data r2 with
      | none => none
      | some r3 =>
        if r3 = "]\x7d".data then some (⟨titleChars⟩, [])
        else
          match parseMessagesAux r3.length r3 with
          | none => none
          | some (ms, r4) => if r4 = "\x7d".data then some (⟨titleChars⟩, ms) else none

/-- Model of the encode in `ShareModal` (`src/index.tsx` lines 713-728):
`btoa(JSON.stringify({title, messages}))`; `none` models the thrown and
caught `InvalidCharacterError` (the share link becomes an error text
instead of a URL). -/
def encodeShare (title : String) (messages : List Message) : Option String :=
  btoa ⟨stringifyShare title messages⟩

/-- Model of reading the `view` query parameter back through
`URLSearchParams` after the raw interpolation
`?view=` + encoded (line 721): application/x-www-form-urlencoded decoding
turns `+` into a space (base64 output contains no `%` or `&`). -/
def urlViewParam (encoded : String) : String :=
  ⟨encoded.data.map (fun c => if c = '+' then ' ' else c)⟩

/-- Model of the share-view decode effect (`src/index.tsx` lines 199-213):
`JSON.parse(atob(viewData))` followed by the validation
`parsedData.title && Array.isArray(parsedData.messages)`; an empty title
is falsy, so the decoded data is rejected as not a shared view. -/
def decodeView (viewData : String) : Option (String × List Message) :=
  match atob viewData with
  | none => none
  | some s =>
    match parseShare s.data with
    | none => none
    | some (title, messages) => if title = "" then none else some (title, messages)

end Share

namespace Share

theorem base64DecodeChar_base64Char : ∀ n : Nat, n < 64 → base64DecodeChar (base64Char n) = some n := by
  decide

theorem base64Char_ne_pad : ∀ n : Nat, n < 64 → base64Char n ≠ '=' := by
  decide

theorem base64Char_not_ws : ∀ n : Nat, n < 64 → isAsciiWhitespace (base64Char n) = false := by
  decide

theorem pad_not_ws : isAsciiWhitespace '=' = false := by decide

theorem base64Decode_encode : ∀ bs : List Nat, (∀ b ∈ bs, b < 256) →
    base64Decode (base64Encode bs) = some bs
  | [], _ => rfl
  | [b1], h => by
    have hb1 : b1 < 256 := h b1 (by simp)
    simp only [base64Encode, base64Decode]
    rw [base64DecodeChar_base64Char (b1 / 4) (by omega),
        base64DecodeChar_base64Char (b1 % 4 * 16) (by omega)]
    show some [b1 / 4 * 4 + b1 % 4 * 16 / 16] = some [b1]
    have e1 : b1 / 4 * 4 + b1 % 4 * 16 / 16 = b1 := by omega
    rw [e1]
  | [b1, b2], h => by
    have hb1 : b1 < 256 := h b1 (by simp)
    have hb2 : b2 < 256 := h b2 (by simp)
    have hne : base64Char (b2 % 16 * 4) ≠ '=' := base64Char_ne_pad _ (by omega)
    simp only [base64Encode, base64Decode]
    rw [base64DecodeChar_base64Char (b1 / 4) (by omega),
        base64DecodeChar_base64Char (b1 % 4 * 16 + b2 / 16) (by omega)]
    simp only [hne, false_and, if_false, and_self, if_true, reduceIte]
    rw [base64DecodeChar_base64Char (b2 % 16 * 4) (by omega)]
    show some [b1 / 4 * 4 + (b1 % 4 * 16 + b2 / 16) / 16,
        (b1 % 4 * 16 + b2 / 16) % 16 * 16 + b2 % 16 * 4 / 4] = some [b1, b2]
    have e1 : b1 / 4 * 4 + (b1 % 4 * 16 + b2 / 16) / 16 = b1 := by omega
    have e2 : (b1 % 4 * 16 + b2 / 16) % 16 * 16 + b2 % 16 * 4 / 4 = b2 := by omega
    rw [e1, e2]
  | b1 :: b2 :: b3 :: rest, h => by
    have hb1 : b1 < 256 := h b1 (by simp)
    have hb2 : b2 < 256 := h b2 (by simp)
    have hb3 : b3 < 256 := h b3 (by simp)
    have ih := base64Decode_encode rest (fun b hb => h b (by simp [hb]))
    have hne3 : base64Char (b2 % 16 * 4 + b3 / 64) ≠ '=' := base64Char_ne_pad _ (by omega)
    have hne4 : base64Char (b3 % 64) ≠ '=' := base64Char_ne_pad _ (by omega)
    show base64Decode (base64Char (b1 / 4) :: base64Char (b1 % 4 * 16 + b2 / 16) ::
      base64Char (b2 % 16 * 4 + b3 / 64) :: base64Char (b3 % 64) ::
      base64Encode rest) = _
    simp only [base64Decode]
    rw [base64DecodeChar_base64Char (b1 / 4) (by omega),
        base64DecodeChar_base64Char (b1 % 4 * 16 + b2 / 16) (by omega)]
    simp only [hne3, hne4, false_and, and_false, if_false, reduceIte]
    rw [base64DecodeChar_base64Char (b2 % 16 * 4 + b3 / 64) (by omega),
        base64DecodeChar_base64Char (b3 % 64) (by omega)]
    simp only [ih]
    show some ((b1 / 4 * 4 + (b1 % 4 * 16 + b2 / 16) / 16) ::
        ((b1 % 4 * 16 + b2 / 16) % 16 * 16 + (b2 % 16 * 4 + b3 / 64) / 4) ::
        ((b2 % 16 * 4 + b3 / 64) % 4 * 64 + b3 % 64) :: rest) = some (b1 :: b2 :: b3 :: rest)
    have e1 : b1 / 4 * 4 + (b1 % 4 * 16 + b2 / 16) / 16 = b1 := by omega
    have e2 : (b1 % 4 * 16 + b2 / 16) % 16 * 16 + (b2 % 16 * 4 + b3 / 64) / 4 = b2 := by omega
    have e3 : (b2 % 16 * 4 + b3 / 64) % 4 * 64 + b3 % 64 = b3 := by omega
    rw [e1, e2, e3]

theorem base64Encode_all_not_ws : ∀ bs : List Nat, (∀ b ∈ bs, b < 256) →
    ∀ c ∈ base64Encode bs, isAsciiWhitespace c = false
  | [], _ => by simp [base64Encode]
  | [b1], h => by
    have hb1 : b1 < 256 := h b1 (by simp)
    simp only [base64Encode]
    intro c hc
    simp only [List.mem_cons, List.not_mem_nil, or_false] at hc
    rcases hc with rfl | rfl | rfl | rfl
    · exact base64Char_not_ws _ (by omega)
    · exact base64Char_not_ws _ (by omega)
    · exact pad_not_ws
    · exact pad_not_ws
  | [b1, b2], h => by
    have hb1 : b1 < 256 := h b1 (by simp)
    have hb2 : b2 < 256 := h b2 (by simp)
    simp only [base64Encode]
    intro c hc
    simp only [List.mem_cons, List.not_mem_nil, or_false] at hc
    rcases hc with rfl | rfl | rfl | rfl
    · exact base64Char_not_ws _ (by omega)
    · exact base64Char_not_ws _ (by omega)
    · exact base64Char_not_ws _ (by omega)
    · exact pad_not_ws
  | b1 :: b2 :: b3 :: rest, h => by
    have hb1 : b1 < 256 := h b1 (by simp)
    have hb2 : b2 < 256 := h b2 (by simp)
    have hb3 : b3 < 256 := h b3 (by simp)
    have ih := base64Encode_all_not_ws rest (fun b hb => h b (by simp [hb]))
    show ∀ c ∈ base64Char (b1 / 4) :: base64Char (b1 % 4 * 16 + b2 / 16) ::
      base64Char (b2 % 16 * 4 + b3 / 64) :: base64Char (b3 % 64) ::
      base64Encode rest, isAsciiWhitespace c = false
    intro c hc
    simp only [List.mem_cons] at hc
    rcases hc with rfl | rfl | rfl | rfl | h1
    · exact base64Char_not_ws _ (by omega)
    · exact base64Char_not_ws _ (by omega)
    · exact base64Char_not_ws _ (by omega)
    · exact base64Char_not_ws _ (by omega)
    · exact ih c h1

theorem map_ofNat_toNat (l : List Char) : (l.map Char.toNat).map Char.ofNat = l := by
  rw [List.map_map]
  have : ∀ c ∈ l, (Char.ofNat ∘ Char.toNat) c = id c := by
    intro c _
    exact Char.ofNat_toNat c
  rw [List.map_congr_left this, List.map_id]

theorem atob_btoa (s : String) (h : ∀ c ∈ s.data, c.toNat ≤ 255) :
    ∃ e, btoa s = some e ∧ atob e = some s := by
  have hall : s.data.all (fun c => c.toNat ≤ 255) = true := by
    rw [List.all_eq_true]
    intro c hc
    simpa using h c hc
  have hbytes : ∀ b ∈ s.data.map Char.toNat, b < 256 := by
    intro b hb
    obtain ⟨c, hc, rfl⟩ := List.mem_map.mp hb
    have := h c hc
    omega
  refine ⟨⟨base64Encode (s.data.map Char.toNat)⟩, ?_, ?_⟩
  · simp only [btoa, hall, if_true, reduceIte]
  · simp only [atob]
    have hfil : (base64Encode (s.data.map Char.toNat)).filter (fun c => !isAsciiWhitespace c) =
        base64Encode (s.data.map Char.toNat) := by
      rw [List.filter_eq_self]
      intro c hc
      simp [base64Encode_all_not_ws _ hbytes c hc]
    show (match base64Decode (List.filter (fun c => !isAsciiWhitespace c)
        (base64Encode (s.data.map Char.toNat))) with
      | some bytes => some (String.mk (bytes.map Char.ofNat))
      | none => none) = some s
    rw [hfil, base64Decode_encode _ hbytes]
    simp only [map_ofNat_toNat]

end Share

namespace Share

theorem dropLit_append (l r : List Char) : dropLit l (l ++ r) = some r := by
  induction l with
  | nil => rfl
  | cons c cs ih => simp [dropLit, ih]

theorem hexVal_hexDigit : ∀ n : Nat, n < 16 → hexVal (hexDigit n) = some n := by
  decide

theorem parseStringBody_cons (c : Char) (rest : List Char) :
    parseStringBody (c :: rest) =
      (if c = '"' then some ([], rest)
      else if c = '\\' then
        match rest with
        | [] => none
        | e :: r =>
          if e = '"' then (fun p => ('"' :: p.1, p.2)) <$> parseStringBody r
          else if e = '\\' then (fun p => ('\\' :: p.1, p.2)) <$> parseStringBody r
          else if e = '/' then (fun p => ('/' :: p.1, p.2)) <$> parseStringBody r
          else if e = 'b' then (fun p => ('\x08' :: p.1, p.2)) <$> parseStringBody r
          else if e = 't' then (fun p => ('\t' :: p.1, p.2)) <$> parseStringBody r
          else if e = 'n' then (fun p => ('\n' :: p.1, p.2)) <$> parseStringBody r
          else if e = 'f' then (fun p => ('\x0c' :: p.1, p.2)) <$> parseStringBody r
          else if e = 'r' then (fun p => ('\r' :: p.1, p.2)) <$> parseStringBody r
          else if e = 'u' then
            match r with
            | h1 :: h2 :: h3 :: h4 :: r2 =>
              match hex4 h1 h2 h3 h4 with
              | some n =>
                if Nat.isValidChar n then
                  (fun p => (Char.ofNat n :: p.1, p.2)) <$> parseStringBody r2
                else none
              | none => none
            | _ => none
          else none
      else if c.toNat < 32 then none
      else (fun p => (c :: p.1, p.2)) <$> parseStringBody rest) := by
  conv_lhs => rw [parseStringBody.eq_def]

theorem hex4_digits (hi lo : Nat) (hhi : hi < 16) (hlo : lo < 16) :
    hex4 '0' '0' (hexDigit hi) (hexDigit lo) = some (hi * 16 + lo) := by
  unfold hex4
  rw [hexVal_hexDigit hi hhi, hexVal_hexDigit lo hlo]
  show some (((0 * 16 + 0) * 16 + hi) * 16 + lo) = some (hi * 16 + lo)
  simp only [Option.some.injEq]
  omega

theorem parseStringBody_escape (l rest : List Char) :
    parseStringBody (escapeString l ++ '"' :: rest) = some (l, rest) := by
  induction l with
  | nil =>
    show parseStringBody ('"' :: rest) = some ([], rest)
    rw [parseStringBody_cons]
    simp
  | cons c l ih =>
    have hesc : escapeString (c :: l) ++ '"' :: rest =
        escChar c ++ (escapeString l ++ '"' :: rest) := by
      simp [escapeString, List.append_assoc]
    rw [hesc]
    by_cases h1 : c = '"'
    · subst h1
      rw [show escChar '"' ++ (escapeString l ++ '"' :: rest) =
        '\\' :: '"' :: (escapeString l ++ '"' :: rest) from rfl]
      rw [parseStringBody_cons]
      simp [ih]
    by_cases h2 : c = '\\'
    · subst h2
      rw [show escChar '\\' ++ (escapeString l ++ '"' :: rest) =
        '\\' :: '\\' :: (escapeString l ++ '"' :: rest) from rfl]
      rw [parseStringBody_cons]
      simp [ih]
    by_cases h3 : c = '\x08'
    · subst h3
      rw [show escChar '\x08' ++ (escapeString l ++ '"' :: rest) =
        '\\' :: 'b' :: (escapeString l ++ '"' :: rest) from rfl]
      rw [parseStringBody_cons]
      simp [ih]
    by_cases h4 : c = '\t'
    · subst h4
      rw [show escChar '\t' ++ (escapeString l ++ '"' :: rest) =
        '\\' :: 't' :: (escapeString l ++ '"' :: rest) from rfl]
      rw [parseStringBody_cons]
      simp [ih]
    by_cases h5 : c = '\n'
    · subst h5
      rw [show escChar '\n' ++ (escapeString l ++ '"' :: rest) =
        '\\' :: 'n' :: (escapeString l ++ '"' :: rest) from rfl]
      rw [parseStringBody_cons]
      simp [ih]
    by_cases h6 : c = '\x0c'
    · subst h6
      rw [show escChar '\x0c' ++ (escapeString l ++ '"' :: rest) =
        '\\' :: 'f' :: (escapeString l ++ '"' :: rest) from rfl]
      rw [parseStringBody_cons]
      simp [ih]
    by_cases h7 : c = '\r'
    · subst h7
      rw [show escChar '\r' ++ (escapeString l ++ '"' :: rest) =
        '\\' :: 'r' :: (escapeString l ++ '"' :: rest) from rfl]
      rw [parseStringBody_cons]
      simp [ih]
    by_cases h8 : c.toNat < 32
    · have hescc : escChar c = ['\\', 'u', '0', '0', hexDigit (c.toNat / 16),
          hexDigit (c.toNat % 16)] := by
        simp only [escChar, h1, h2, h3, h4, h5, h6, h7, h8, if_false, if_true, reduceIte]
      have hv : Nat.isValidChar c.toNat := Or.inl (by omega)
      rw [hescc]
      rw [show (['\\', 'u', '0', '0', hexDigit (c.toNat / 16), hexDigit (c.toNat % 16)] ++
        (escapeString l ++ '"' :: rest)) =
        '\\' :: 'u' :: '0' :: '0' :: hexDigit (c.toNat / 16) :: hexDigit (c.toNat % 16) ::
          (escapeString l ++ '"' :: rest) from rfl]
      rw [parseStringBody_cons]
      simp [hex4_digits (c.toNat / 16) (c.toNat % 16) (by omega) (by omega),
        show c.toNat / 16 * 16 + c.toNat % 16 = c.toNat from by omega, hv,
        Char.ofNat_toNat, ih]
    · have hescc : escChar c = [c] := by
        simp only [escChar, h1, h2, h3, h4, h5, h6, h7, h8, if_false, reduceIte]
      rw [hescc, List.singleton_append, parseStringBody_cons, if_neg h1, if_neg h2,
        if_neg h8, ih]
      rfl

theorem parseJsonString_quote (l rest : List Char) :
    parseJsonString (quoteString l ++ rest) = some (l, rest) := by
  have h : quoteString l ++ rest = '"' :: (escapeString l ++ '"' :: rest) := by
    simp [quoteString, List.append_assoc]
  rw [h]
  show parseStringBody (escapeString l ++ '"' :: rest) = some (l, rest)
  exact parseStringBody_escape l rest

theorem parseMessage_stringify (m : Message) (rest : List Char) :
    parseMessage (stringifyMessage m ++ rest) = some (m, rest) := by
  obtain ⟨role, text⟩ := m
  have h : stringifyMessage ⟨role, text⟩ ++ rest =
      "\x7b\"role\":".data ++ (quoteString (roleText role) ++
        (",\"text\":".data ++ (quoteString text.data ++ ("\x7d".data ++ rest)))) := by
    simp [stringifyMessage, List.append_assoc]
  rw [h]
  simp only [parseMessage, dropLit_append, parseJsonString_quote]
  cases role
  · simp [roleText, String.mk_data]
  · simp [roleText, String.mk_data]

theorem one_le_stringifyMessage_length (m : Message) : 1 ≤ (stringifyMessage m).length := by
  have h8 : ("\x7b\"role\":".data).length = 8 := rfl
  simp [stringifyMessage, List.length_append, h8]

theorem length_le_stringifyMessages : ∀ ms : List Message,
    ms.length ≤ (stringifyMessages ms).length
  | [] => by simp [stringifyMessages]
  | [m] => by simpa [stringifyMessages] using one_le_stringifyMessage_length m
  | m :: m2 :: more => by
    have ih := length_le_stringifyMessages (m2 :: more)
    have h1 := one_le_stringifyMessage_length m
    simp only [stringifyMessages, List.length_append, List.length_cons]
    simp only [List.length_cons] at ih
    omega

theorem parseMessagesAux_stringify : ∀ (ms : List Message) (fuel : Nat) (rest : List Char),
    ms ≠ [] → ms.length ≤ fuel →
    parseMessagesAux fuel (stringifyMessages ms ++ ']' :: rest) = some (ms, rest)
  | [], _, _, hne, _ => absurd rfl hne
  | [m], fuel, rest, _, hlen => by
    cases fuel with
    | zero => simp at hlen
    | succ f =>
      simp only [stringifyMessages, parseMessagesAux, parseMessage_stringify]
  | m :: m2 :: more, fuel, rest, _, hlen => by
    cases fuel with
    | zero => simp at hlen
    | succ f =>
      have ih := parseMessagesAux_stringify (m2 :: more) f rest (by simp)
        (by simp only [List.length_cons] at hlen ⊢; omega)
      have h : stringifyMessages (m :: m2 :: more) ++ ']' :: rest =
          stringifyMessage m ++ (',' :: (stringifyMessages (m2 :: more) ++ ']' :: rest)) := by
        simp [stringifyMessages, List.append_assoc]
      rw [h]
      simp only [parseMessagesAux, parseMessage_stringify, ih]

theorem parseShare_stringify (title : String) (ms : List Message) :
    parseShare (stringifyShare title ms) = some (title, ms) := by
  show parseShare ("\x7b\"title\":".data ++ (quoteString title.data ++
    (",\"messages\":[".data ++ (stringifyMessages ms ++ "]\x7d".data)))) = some (title, ms)
  simp only [parseShare, dropLit_append, parseJsonString_quote]
  cases ms with
  | nil =>
    simp [stringifyMessages, String.mk_data]
  | cons m more =>
    have hne : stringifyMessages (m :: more) ++ "]\x7d".data ≠ "]\x7d".data := by
      intro heq
      have hlen := congrArg List.length heq
      simp only [List.length_append] at hlen
      have h1 : 1 ≤ (stringifyMessages (m :: more)).length :=
        le_trans (by simp) (length_le_stringifyMessages (m :: more))
      omega
    rw [if_neg hne]
    have hsplit : stringifyMessages (m :: more) ++ "]\x7d".data =
        stringifyMessages (m :: more) ++ ']' :: "\x7d".data := rfl
    rw [hsplit]
    rw [parseMessagesAux_stringify (m :: more) _ _ (by simp) ?_]
    · simp [String.mk_data]
    · have h1 := length_le_stringifyMessages (m :: more)
      simp only [List.length_cons] at h1
      simp only [List.length_append, List.length_cons]
      omega

end Share

namespace Share

theorem hexDigit_latin1 : ∀ n : Nat, n < 16 → (hexDigit n).toNat ≤ 255 := by decide

theorem escChar_latin1 (c : Char) (h : c.toNat ≤ 255) : ∀ d ∈ escChar c, d.toNat ≤ 255 := by
  intro d hd
  unfold escChar at hd
  split_ifs at hd with h1 h2 h3 h4 h5 h6 h7 h8
  · simp only [List.mem_cons, List.not_mem_nil, or_false] at hd
    rcases hd with rfl | rfl <;> decide
  · simp only [List.mem_cons, List.not_mem_nil, or_false] at hd
    rcases hd with rfl | rfl <;> decide
  · simp only [List.mem_cons, List.not_mem_nil, or_false] at hd
    rcases hd with rfl | rfl <;> decide
  · simp only [List.mem_cons, List.not_mem_nil, or_false] at hd
    rcases hd with rfl | rfl <;> decide
  · simp only [List.mem_cons, List.not_mem_nil, or_false] at hd
    rcases hd with rfl | rfl <;> decide
  · simp only [List.mem_cons, List.not_mem_nil, or_false] at hd
    rcases hd with rfl | rfl <;> decide
  · simp only [List.mem_cons, List.not_mem_nil, or_false] at hd
    rcases hd with rfl | rfl <;> decide
  · simp only [List.mem_cons, List.not_mem_nil, or_false] at hd
    rcases hd with rfl | rfl | rfl | rfl | rfl | rfl
    · decide
    · decide
    · decide
    · decide
    · exact hexDigit_latin1 _ (by omega)
    · exact hexDigit_latin1 _ (by omega)
  · simp only [List.mem_cons, List.not_mem_nil, or_false] at hd
    rcases hd with rfl
    exact h

theorem escapeString_latin1 (l : List Char) (h : ∀ c ∈ l, c.toNat ≤ 255) :
    ∀ d ∈ escapeString l, d.toNat ≤ 255 := by
  intro d hd
  unfold escapeString at hd
  obtain ⟨c, hc, hdc⟩ := List.mem_flatMap.mp hd
  exact escChar_latin1 c (h c hc) d hdc

theorem quoteString_latin1 (l : List Char) (h : ∀ c ∈ l, c.toNat ≤ 255) :
    ∀ d ∈ quoteString l, d.toNat ≤ 255 := by
  intro d hd
  unfold quoteString at hd
  simp only [List.mem_cons, List.mem_append, List.not_mem_nil, or_false] at hd
  rcases hd with rfl | hd | rfl
  · decide
  · exact escapeString_latin1 l h d hd
  · decide

theorem roleText_latin1 (role : Role) : ∀ d ∈ roleText role, d.toNat ≤ 255 := by
  cases role <;> decide

theorem stringifyMessage_latin1 (m : Message) (h : ∀ c ∈ m.text.data, c.toNat ≤ 255) :
    ∀ d ∈ stringifyMessage m, d.toNat ≤ 255 := by
  intro d hd
  unfold stringifyMessage at hd
  simp only [List.mem_append] at hd
  rcases hd with hd | hd | hd | hd | hd
  · revert d hd
    decide
  · exact quoteString_latin1 _ (roleText_latin1 m.role) d hd
  · revert d hd
    decide
  · exact quoteString_latin1 _ h d hd
  · revert d hd
    decide

theorem stringifyMessages_latin1 : ∀ ms : List Message,
    (∀ m ∈ ms, ∀ c ∈ m.text.data, c.toNat ≤ 255) →
    ∀ d ∈ stringifyMessages ms, d.toNat ≤ 255
  | [], _ => by simp [stringifyMessages]
  | [m], h => by
    simpa [stringifyMessages] using stringifyMessage_latin1 m (h m (by simp))
  | m :: m2 :: more, h => by
    intro d hd
    simp only [stringifyMessages, List.mem_append, List.mem_cons] at hd
    rcases hd with hd | rfl | hd
    · exact stringifyMessage_latin1 m (h m (by simp)) d hd
    · decide
    · exact stringifyMessages_latin1 (m2 :: more)
        (fun m3 hm3 => h m3 (List.mem_cons_of_mem m hm3)) d hd

theorem stringifyShare_latin1 (title : String) (ms : List Message)
    (htitle : ∀ c ∈ title.data, c.toNat ≤ 255)
    (htexts : ∀ m ∈ ms, ∀ c ∈ m.text.data, c.toNat ≤ 255) :
    ∀ d ∈ stringifyShare title ms, d.toNat ≤ 255 := by
  intro d hd
  unfold stringifyShare at hd
  simp only [List.mem_append] at hd
  rcases hd with hd | hd | hd | hd | hd
  · revert d hd
    decide
  · exact quoteString_latin1 _ htitle d hd
  · revert d hd
    decide
  · exact stringifyMessages_latin1 ms htexts d hd
  · revert d hd
    decide

/-- Claim C2 (amended): the share round-trip reproduces exactly the same
title and the same ordered message sequence for every pair whose title is
non-empty and whose title and message texts are Latin-1 (all code units at
most 255), provided the base64 blob reaches the decoder intact; when the
blob contains no `+`, it also survives the raw `?view=` URL interpolation
and `URLSearchParams` readback.  The unqualified claim fails in three
ways, shown in the counterexample theorem: an empty title is rejected by
the decode validation as falsy, a non-Latin-1 character makes `btoa` throw
so no export is produced, and a `+` in the blob is decoded from the URL as
a space, so the share link does not round-trip. -/
theorem c2_share_round_trip (title : String) (messages : List Message)
    (htitle : ∀ c ∈ title.data, c.toNat ≤ 255)
    (htexts : ∀ m ∈ messages, ∀ c ∈ m.text.data, c.toNat ≤ 255)
    (hne : title ≠ "") :
    ∃ e, encodeShare title messages = some e
      ∧ decodeView e = some (title, messages)
      ∧ ('+' ∉ e.data → decodeView (urlViewParam e) = some (title, messages)) := by
  have hlatin : ∀ c ∈ (String.mk (stringifyShare title messages)).data, c.toNat ≤ 255 :=
    stringifyShare_latin1 title messages htitle htexts
  obtain ⟨e, hb, ha⟩ := atob_btoa ⟨stringifyShare title messages⟩ hlatin
  have hdec : decodeView e = some (title, messages) := by
    simp [decodeView, ha, parseShare_stringify, hne]
  refine ⟨e, hb, hdec, ?_⟩
  intro hplus
  have hurl : urlViewParam e = e := by
    unfold urlViewParam
    have hmap : e.data.map (fun c => if c = '+' then ' ' else c) = e.data := by
      have : ∀ c ∈ e.data, (if c = '+' then ' ' else c) = id c := by
        intro c hc
        have : c ≠ '+' := fun hcp => hplus (hcp ▸ hc)
        simp [this]
      rw [List.map_congr_left this, List.map_id]
    rw [hmap]
  rw [hurl]
  exact hdec

end Share

namespace Share

/-- Witness for claim C2 at a concrete conversation. -/
theorem c2_share_round_trip_witness :
    (∀ c ∈ ("Hi" : String).data, c.toNat ≤ 255)
    ∧ (∀ m ∈ [(⟨Role.user, "Yo"⟩ : Message)], ∀ c ∈ m.text.data, c.toNat ≤ 255)
    ∧ ("Hi" : String) ≠ ""
    ∧ (∃ e, encodeShare "Hi" [⟨Role.user, "Yo"⟩] = some e
        ∧ decodeView e = some ("Hi", [⟨Role.user, "Yo"⟩])
        ∧ ('+' ∉ e.data → decodeView (urlViewParam e) = some ("Hi", [⟨Role.user, "Yo"⟩]))) :=
  ⟨by decide, by decide, by decide,
   c2_share_round_trip "Hi" [⟨Role.user, "Yo"⟩] (by decide) (by decide) (by decide)⟩

/-- Counterexample to claim C2 as stated, in three parts.  An empty title
encodes fine but the share-URL decode rejects it (falsy validation), so
the round-trip does not reproduce the pair.  A non-Latin-1 title makes
`btoa` throw: no share export exists at all.  A title whose base64 blob
contains `+` (here `>>`) decodes fine blob-to-blob, but the raw `?view=`
interpolation plus `URLSearchParams` readback turns `+` into a space and
the round-trip through the actual share URL fails. -/
theorem c2_share_round_trip_cx :
    (encodeShare "" [] = some "eyJ0aXRsZSI6IiIsIm1lc3NhZ2VzIjpbXX0="
      ∧ decodeView "eyJ0aXRsZSI6IiIsIm1lc3NhZ2VzIjpbXX0=" = none)
    ∧ encodeShare "日" [] = none
    ∧ (encodeShare ">>" [] = some "eyJ0aXRsZSI6Ij4+IiwibWVzc2FnZXMiOltdfQ=="
      ∧ decodeView "eyJ0aXRsZSI6Ij4+IiwibWVzc2FnZXMiOltdfQ==" = some (">>", [])
      ∧ decodeView (urlViewParam "eyJ0aXRsZSI6Ij4+IiwibWVzc2FnZXMiOltdfQ==") = none) :=
  ⟨⟨by decide, by decide⟩, by decide, by decide, by decide, by decide⟩

end Share
